import Mathlib

/-!
Verification of the NeDRex API asynchronous job-submission engine.

This file gives a shallow embedding of the job submission, deduplication,
status-tracking and resubmission logic of the `nedrexapi` repository
(routers/diamond.py, routers/validation.py, routers/trustrank.py,
routers/admin.py, tasks/diamond.py, networks.py) and proves or refutes the
frozen specification claims about it.

Python strings are modelled as Lean `String`; the handful of string
operations the code uses (`upper`, `startswith`, `isnumeric`, `replace`
with empty replacement, `sorted`) are re-implemented structurally over
`String.data` so that all definitions evaluate inside the kernel.
MongoDB collections are modelled as lists of records in insertion order;
`find_one`/`update_one`/`replace_one` act on the first matching record,
mirroring MongoDB's natural-order semantics for these single-document
operations.  The Redis lock serializes the check-then-insert window, so
submissions are modelled as atomic state transformers; the background
queue is modelled as the list of enqueued (task, uid) entries.
-/

namespace Nedrex

/-! ## Python string primitives, modelled structurally -/

/-- Python `str.upper` (ASCII scope, as used on identifiers here). -/
def pyUpper (s : String) : String := ⟨s.data.map Char.toUpper⟩

/-- `isPrefixL pat l` is true when `pat` is a prefix of `l`. -/
def isPrefixL : List Char → List Char → Bool
  | [], _ => true
  | _ :: _, [] => false
  | a :: as, b :: bs => a == b && isPrefixL as bs

/-- Python `str.startswith`. -/
def pyStartsWith (s pat : String) : Bool := isPrefixL pat.data s.data

/-- Python `str.isnumeric` (ASCII-digit scope, as used on identifiers here). -/
def pyIsNumeric (s : String) : Bool := !s.data.isEmpty && s.data.all Char.isDigit

/-- Left-to-right scan removing every occurrence of `pat`, fuelled so the
recursion is structural; with fuel = length of the input this is Python
`s.replace(pat, "")` for non-empty `pat`. -/
def removeAllFuel (pat : List Char) : Nat → List Char → List Char
  | _, [] => []
  | 0, s => s
  | Nat.succ n, c :: rest =>
    if isPrefixL pat (c :: rest) && !pat.isEmpty then
      removeAllFuel pat n ((c :: rest).drop pat.length)
    else
      c :: removeAllFuel pat n rest

/-- Python `s.replace(pat, "")`. -/
def pyRemoveAll (s pat : String) : String := ⟨removeAllFuel pat.data s.data.length s.data⟩

/-- Lexicographic comparison of code-point lists (Python string `<=`). -/
def lexLe : List Char → List Char → Bool
  | [], _ => true
  | _ :: _, [] => false
  | a :: as, b :: bs =>
    if a.toNat < b.toNat then true
    else if b.toNat < a.toNat then false
    else lexLe as bs

/-- Python string `<=` (code-point lexicographic order). -/
def strLe (a b : String) : Bool := lexLe a.data b.data

/-- The order `strLe` as a `Prop`-valued relation usable with `insertionSort`. -/
def rStrLe (a b : String) : Prop := strLe a b = true

instance : DecidableRel rStrLe := fun a b => by unfold rStrLe; infer_instance

/-- Python `sorted` on a list of strings. -/
def pySorted (l : List String) : List String := List.insertionSort rStrLe l

/-- Python `sorted(set(l))`: a sorted list of the distinct elements of `l`. -/
def pySortedSet (l : List String) : List String := pySorted l.dedup

/-! ## `networks.py`: seed normalisation (`normalise_seeds_and_determine_type`) -/

/-- `networks.normalise_seeds_and_determine_type`: upper-cases every seed;
if all (upper-cased) seeds start with `ENTREZ.` the prefix is removed and
the type is `gene`; else if all are numeric the type is `gene`; else if all
start with `UNIPROT.` the prefix is removed (type stays `protein`);
otherwise the seeds are returned upper-cased with type `protein`. -/
def normalise_seeds_and_determine_type (seeds : List String) : List String × String :=
  let new_seeds := seeds.map pyUpper
  let all_entrez := new_seeds.all (fun s => pyStartsWith s "ENTREZ.")
  let all_numeric := new_seeds.all pyIsNumeric
  let all_uniprot := new_seeds.all (fun s => pyStartsWith s "UNIPROT.")
  if all_entrez then (new_seeds.map (fun s => pyRemoveAll s "ENTREZ."), "gene")
  else if all_numeric then (new_seeds, "gene")
  else if all_uniprot then (new_seeds.map (fun s => pyRemoveAll s "UNIPROT."), "protein")
  else (new_seeds, "protein")

/-- Modelled from the claim's words (not from the source): classify a mixed
seed list "gene vs. protein by majority pattern-match — numeric-only implies
gene, namespace-prefixed implies that namespace, otherwise default to
protein".  Each seed votes and the majority wins (protein on ties). -/
def claimMajorityClassify (seeds : List String) : String :=
  let vote := fun (s : String) =>
    if pyIsNumeric (pyUpper s) then "gene"
    else if pyStartsWith (pyUpper s) "ENTREZ." then "gene"
    else "protein"
  let geneVotes := (seeds.map vote).count "gene"
  let proteinVotes := (seeds.map vote).count "protein"
  if proteinVotes < geneVotes then "gene" else "protein"

/-! ## `routers/diamond.py`: request, canonical query, submission, download -/

/-- `DiamondRequest` (pydantic model): every field defaults to `None`. -/
structure DiamondRequest where
  seeds : Option (List String) := none
  n : Option Int := none
  alpha : Option Int := none
  network : Option String := none
  edges : Option String := none
deriving DecidableEq

/-- An `HTTPException(status_code, detail)`. -/
structure HErr where
  code : Nat
  detail : String
deriving DecidableEq

instance {ε α : Type} [DecidableEq ε] [DecidableEq α] : DecidableEq (Except ε α) := fun x y =>
  match x, y with
  | .error a, .error b =>
    if h : a = b then isTrue (by rw [h]) else isFalse (fun c => h (by injection c))
  | .error _, .ok _ => isFalse (fun c => Except.noConfusion c)
  | .ok _, .error _ => isFalse (fun c => Except.noConfusion c)
  | .ok a, .ok b =>
    if h : a = b then isTrue (by rw [h]) else isFalse (fun c => h (by injection c))

/-- The canonical query document built by `diamond_submit` (its six
dedup-relevant fields, in source order). -/
structure DiamondQuery where
  seeds : List String
  seed_type : String
  n : Int
  alpha : Int
  network : String
  edges : String
deriving DecidableEq

/-- The `results` payload parsed by the worker from the external tool's
output files; its contents are opaque to the job engine. -/
structure DiamondResults where
  diamond_nodes : List (List (String × String))
  edges : List (List String)
  seeds_in_network : List String
deriving DecidableEq

/-- A document of the `diamond_` MongoDB collection: the canonical query
fields plus the volatile `uid`/`status`/`error`/`results` fields. -/
structure DiamondRecord where
  query : DiamondQuery
  uid : String
  status : String
  error : Option String := none
  results : Option DiamondResults := none
deriving DecidableEq

/-- The state touched by the DIAMOnD endpoints: the `diamond_` collection in
insertion order, the queue of enqueued task uids, and a counter of
acquisitions of `_DIAMOND_COLL_LOCK` (to witness that failing paths never
take the lock). -/
structure DiamondState where
  records : List DiamondRecord
  tasks : List String
  lockAcq : Nat
deriving DecidableEq

def emptyDiamondState : DiamondState := ⟨[], [], 0⟩

/-- First record in a list whose canonical-query fields equal `q`. -/
def findRecQ (q : DiamondQuery) : List DiamondRecord → Option DiamondRecord
  | [] => none
  | r :: rs => if r.query = q then some r else findRecQ q rs

/-- First record in a list with the given uid. -/
def findRecU (uid : String) : List DiamondRecord → Option DiamondRecord
  | [] => none
  | r :: rs => if r.uid = uid then some r else findRecU uid rs

/-- `find_one(query)`: first record whose canonical-query fields equal `q`
(stored records carry the query fields plus extras, so MongoDB's subset
matching reduces to equality on the six fields). -/
def findDiamondByQuery (q : DiamondQuery) (st : DiamondState) : Option DiamondRecord :=
  findRecQ q st.records

/-- `find_one({"uid": uid})`: first record with the given uid. -/
def findDiamondByUid (uid : String) (st : DiamondState) : Option DiamondRecord :=
  findRecU uid st.records

/-- `update_one({"uid": uid}, {"$set": ...})`: update the first record with
the given uid (no-op when none matches). -/
def updateFirstDiamond (uid : String) (f : DiamondRecord → DiamondRecord) :
    List DiamondRecord → List DiamondRecord
  | [] => []
  | r :: rs => if r.uid = uid then f r :: rs else r :: updateFirstDiamond uid f rs

def updateDiamond (uid : String) (f : DiamondRecord → DiamondRecord) (st : DiamondState) :
    DiamondState :=
  { st with records := updateFirstDiamond uid f st.records }

/-- Lines 79–99 of `routers/diamond.py`: request validation and construction
of the canonical query.  Python falsiness: `not dr.seeds` is true for `None`
and for `[]`; `not dr.n` is true for `None` and for `0`. -/
def diamond_query (dr : DiamondRequest) : Except HErr DiamondQuery :=
  match dr.seeds with
  | none => .error ⟨400, "No seeds submitted"⟩
  | some seeds =>
    if seeds.isEmpty then .error ⟨400, "No seeds submitted"⟩
    else match dr.n with
    | none => .error ⟨400, "Number of results to return is not specified"⟩
    | some n =>
      if n = 0 then .error ⟨400, "Number of results to return is not specified"⟩
      else
        let ns := normalise_seeds_and_determine_type seeds
        let edges := dr.edges.getD "all"
        if edges ≠ "all" ∧ edges ≠ "limited" then
          .error ⟨422, "If specified, edges must be limited or all"⟩
        else
          .ok { seeds := pySorted ns.1
                seed_type := ns.2
                n := n
                alpha := dr.alpha.getD 1
                network := dr.network.getD "DEFAULT"
                edges := edges }

/-- Lines 79–113 of `routers/diamond.py` (`diamond_submit`): validate and
build the canonical query, then under `_DIAMOND_COLL_LOCK` either return the
uid of an existing record with an identical canonical query, or insert a new
record with `status = "submitted"` and enqueue a background task.  `freshUid`
stands for the `uuid4()` value drawn on the insert path. -/
def diamond_submit (dr : DiamondRequest) (freshUid : String) (st : DiamondState) :
    Except HErr String × DiamondState :=
  match diamond_query dr with
  | .error e => (.error e, st)
  | .ok q =>
    let st1 : DiamondState := { st with lockAcq := st.lockAcq + 1 }
    match findDiamondByQuery q st1 with
    | some r => (.ok r.uid, st1)
    | none =>
      let newRecord : DiamondRecord :=
        { query := q, uid := freshUid, status := "submitted" }
      (.ok freshUid,
        { st1 with
          records := st1.records ++ [newRecord]
          tasks := st1.tasks ++ [freshUid] })

/-- Fold a list of submissions (request, fresh uid) through `diamond_submit`,
in the serialization order imposed by `_DIAMOND_COLL_LOCK`. -/
def submitMany (reqs : List (DiamondRequest × String)) (st : DiamondState) : DiamondState :=
  reqs.foldl (fun s p => (diamond_submit p.1 p.2 s).2) st

/-- The canonical query of a request, when validation passes. -/
def okQuery (dr : DiamondRequest) : Option DiamondQuery := (diamond_query dr).toOption

/-- The canonical queries of the requests of a submission list that pass
validation. -/
def okQueries (reqs : List (DiamondRequest × String)) : List DiamondQuery :=
  reqs.filterMap (fun p => okQuery p.1)

def queriesOf (st : DiamondState) : List DiamondQuery := st.records.map (·.query)

def uidsOf (st : DiamondState) : List String := st.records.map (·.uid)

/-- Identity-relevant agreement of two collection states: same records in
the same order with the same canonical query and the same uid; statuses,
errors and results may differ (e.g. after a worker run or a failure). -/
def SameJobs (st1 st2 : DiamondState) : Prop :=
  List.Forall₂ (fun a b => a.query = b.query ∧ a.uid = b.uid) st1.records st2.records

/-- Abstract effect of one successful submission on the list of stored
canonical queries. -/
def insertIfAbsent (l : List DiamondQuery) (q : DiamondQuery) : List DiamondQuery :=
  if q ∈ l then l else l ++ [q]

/-- Result of a download endpoint: an `HTTPException` or a `Response` with
the contents read from the given artifact path. -/
inductive DlResult where
  | httpError (code : Nat) (detail : String)
  | fileResponse (path : String)
deriving DecidableEq

/-- Lines 132–144 of `routers/diamond.py` (`diamond_download`): 404 when the
uid is unknown, 102 when the status is `"running"`, 404 when `"failed"`, and
otherwise a `Response` reading `_DIAMOND_DIR / f"{uid}.txt"` — note the
`"submitted"` status also reaches the file read. -/
def diamond_download (uid : String) (st : DiamondState) : DlResult :=
  match findDiamondByUid uid st with
  | none => .httpError 404 ("No DIAMOnD job with UID " ++ uid)
  | some r =>
    if r.status = "running" then
      .httpError 102 ("DIAMOnD job with UID " ++ uid ++ " is still running")
    else if r.status = "failed" then
      .httpError 404 ("No results for DIAMOnD job with UID " ++ uid ++ " (failed)")
    else
      .fileResponse (uid ++ ".txt")

/-! ## `routers/trustrank.py`: download endpoint (same shape as DIAMOnD's) -/

/-- The fields of a `trustrank_` record read by `trustrank_download`. -/
structure TrustRankRecord where
  uid : String
  status : String
deriving DecidableEq

/-- First trustrank record with the given uid. -/
def findTrustRank (uid : String) : List TrustRankRecord → Option TrustRankRecord
  | [] => none
  | r :: rs => if r.uid = uid then some r else findTrustRank uid rs

/-- Lines 106–118 of `routers/trustrank.py` (`trustrank_download`). -/
def trustrank_download (uid : String) (records : List TrustRankRecord) : DlResult :=
  match findTrustRank uid records with
  | none => .httpError 404 ("No TrustRank job with UID " ++ uid)
  | some r =>
    if r.status = "running" then
      .httpError 102 ("TrustRank job with uid " ++ uid ++ " is still running")
    else if r.status = "failed" then
      .httpError 404 ("No results TrustRank job with UID " ++ uid ++ " (failed)")
    else
      .fileResponse (uid ++ ".txt")

/-! ## `tasks/diamond.py`: the DIAMOnD worker -/

def PPI_BASED_GGI_QUERY : String :=
  "MATCH (pa)-[ppi:ProteinInteractsWithProtein]-(pb) WHERE exp in ppi.evidenceTypes MATCH (pa)-[:ProteinEncodedByGene]->(x) MATCH (pb)-[:ProteinEncodedByGene]->(y) RETURN DISTINCT x.primaryDomainId, y.primaryDomainId"

def PPI_QUERY : String :=
  "MATCH (x)-[ppi:ProteinInteractsWithProtein]-(y) WHERE exp in ppi.evidenceTypes RETURN DISTINCT x.primaryDomainId, y.primaryDomainId"

def SHARED_DISORDER_BASED_GGI_QUERY : String :=
  "MATCH (x:Gene)-[:GeneAssociatedWithDisorder]->(d:Disorder) MATCH (y:Gene)-[:GeneAssociatedWithDisorder]->(d:Disorder) WHERE x <> y RETURN DISTINCT x.primaryDomainId, y.primaryDomainId"

/-- `networks.QUERY_MAP`: the (seed type, network) pairs with a defined
algorithm query. -/
def QUERY_MAP (seed_type network : String) : Option String :=
  if seed_type = "gene" ∧ network = "DEFAULT" then some PPI_BASED_GGI_QUERY
  else if seed_type = "protein" ∧ network = "DEFAULT" then some PPI_QUERY
  else if seed_type = "gene" ∧ network = "SHARED_DISORDER" then some SHARED_DISORDER_BASED_GGI_QUERY
  else none

/-- Outcome of the external part of a worker run (network/seed file
preparation, `subprocess.call` of the DIAMOnD executable, and parsing of its
output files), which is outside the job engine: any exception raised in the
body, a non-zero exit code, or exit 0 with parsed results. -/
inductive ExecOutcome where
  | raises (msg : String)
  | exitsNonzero (code : Int)
  | succeeds (res : DiamondResults)
deriving DecidableEq

/-- The error string of the exception raised on an undefined
(seed type, network) pair. -/
def incompatMessage (network seed_type : String) : String :=
  "Network choice (" ++ network ++ ") and seed type (" ++ seed_type ++ ") are incompatible"

/-- The error string written when the executable exits non-zero. -/
def diamondExitMessage (code : Int) : String :=
  "DIAMOnD exited with return code " ++ toString code ++
    " -- please check your inputs and contact API developer if issues persist."

/-- Lines 24–124 of `tasks/diamond.py` (`run_diamond`): look the record up
(raising when absent), mark it `"running"`, check `QUERY_MAP` compatibility
(raising when undefined), then run the external tool: non-zero exit writes
`status="failed"` with the captured message and returns; success writes
`status="completed"` with the parsed results.  The second component is the
exception propagated to the wrapper (`none` on normal return), paired with
the state as of the raise. -/
def run_diamond (exec : ExecOutcome) (uid : String) (st : DiamondState) :
    DiamondState × Option String :=
  match findDiamondByUid uid st with
  | none => (st, some ("No DIAMOnD job with UID " ++ uid))
  | some details =>
    let st1 := updateDiamond uid (fun r => { r with status := "running" }) st
    if (QUERY_MAP details.query.seed_type details.query.network).isNone then
      (st1, some (incompatMessage details.query.network details.query.seed_type))
    else
      match exec with
      | .raises msg => (st1, some msg)
      | .exitsNonzero code =>
        (updateDiamond uid
          (fun r => { r with status := "failed", error := some (diamondExitMessage code) }) st1,
         none)
      | .succeeds res =>
        (updateDiamond uid
          (fun r => { r with status := "completed", results := some res }) st1,
         none)

/-- Lines 15–21 of `tasks/diamond.py` (`run_diamond_wrapper`): run the job
and turn any exception into `status="failed"` with the stringified exception
in `error`; exceptions never propagate further (the function is total). -/
def run_diamond_wrapper (exec : ExecOutcome) (uid : String) (st : DiamondState) : DiamondState :=
  match run_diamond exec uid st with
  | (st1, none) => st1
  | (st1, some e) =>
    updateDiamond uid (fun r => { r with status := "failed", error := some e }) st1

def statusOf (uid : String) (st : DiamondState) : Option String :=
  (findDiamondByUid uid st).map (·.status)

def errorOf (uid : String) (st : DiamondState) : Option (Option String) :=
  (findDiamondByUid uid st).map (·.error)

def resultsOf (uid : String) (st : DiamondState) : Option (Option DiamondResults) :=
  (findDiamondByUid uid st).map (·.results)

/-! ## `routers/validation.py`: list normalisation of `joint_validation_submit` -/

/-- `validation.standardize_list`. -/
def standardize_list (lst : List String) (pre : String) : List String :=
  lst.map (fun i => if pyStartsWith i pre then i else pre ++ i)

def standardize_drugbank_list (lst : List String) : List String :=
  standardize_list lst "drugbank."

def standardize_uniprot_list (lst : List String) : List String :=
  standardize_list lst "uniprot."

def standardize_entrez_list (lst : List String) : List String :=
  standardize_list lst "entrez."

/-- The `test_drugs` field of the joint-validation canonical record
(line 98 of `routers/validation.py`): `sorted(set(standardize_drugbank_list(...)))`. -/
def joint_test_drugs (lst : List String) : List String :=
  pySortedSet (standardize_drugbank_list lst)

/-- The `true_drugs` field (line 99): `sorted(set(standardize_drugbank_list(...)))`. -/
def joint_true_drugs (lst : List String) : List String :=
  pySortedSet (standardize_drugbank_list lst)

/-! ## `routers/admin.py`: resubmission (`resubmit_job`, `KEEP_KEYS`) -/

/-- A BSON value, as far as the resubmission logic inspects one. -/
inductive BVal where
  | str (s : String)
  | int (n : Int)
  | bool (b : Bool)
  | listStr (l : List String)
deriving DecidableEq

/-- A MongoDB document: ordered key/value pairs (Python dicts preserve
insertion order and have unique keys). -/
abbrev BDoc := List (String × BVal)

/-- First value stored under key `k`. -/
def lookupKey (k : String) : BDoc → Option BVal
  | [] => none
  | kv :: rest => if kv.1 = k then some kv.2 else lookupKey k rest

/-- Whether the document has an entry under key `k`. -/
def hasKey (k : String) : BDoc → Bool
  | [] => false
  | kv :: rest => decide (kv.1 = k) || hasKey k rest

/-- Replace the value of every entry under key `k` in place. -/
def replaceKey (k : String) (v : BVal) : BDoc → BDoc
  | [] => []
  | kv :: rest => (if kv.1 = k then (k, v) else kv) :: replaceKey k v rest

/-- `doc[k] = v`: replace the value of an existing key in place, else append
(Python dicts keep insertion order and have unique keys). -/
def setKey (k : String) (v : BVal) (d : BDoc) : BDoc :=
  if hasKey k d then replaceKey k v d else d ++ [(k, v)]

/-- `KEEP_KEYS` of `routers/admin.py`: the per-job-type allow-lists of
fields preserved on resubmission. -/
def KEEP_KEYS (job_type : String) : Option (List String) :=
  if job_type = "validation" then
    some ["test_drugs", "true_drugs", "permutations", "only_approved_drugs", "validation_type",
      "uid", "status", "module_member_type", "module_members", "_id"]
  else if job_type = "trustrank" then
    some ["seed_proteins", "damping_factor", "only_approved_drugs", "only_direct_drugs", "N",
      "uid", "_id"]
  else if job_type = "closeness" then
    some ["seed_proteins", "only_direct_drugs", "only_approved_drugs", "N", "uid", "_id"]
  else if job_type = "must" then
    some ["seeds", "seed_type", "network", "hub_penalty", "multiple", "trees", "maxit",
      "uid", "_id"]
  else if job_type = "diamond" then
    some ["seeds", "seed_type", "n", "alpha", "network", "edges", "uid", "_id"]
  else if job_type = "graphs" then
    some ["nodes", "edges", "ppi_evidence", "ppi_self_loops", "taxid", "drug_groups", "concise",
      "include_omim", "disgenet_threshold", "use_omim_ids", "split_drug_types", "uid", "_id"]
  else if job_type = "bicon" then
    some ["sha256", "lg_min", "lg_max", "network", "submitted_filename", "filename", "uid", "_id"]
  else
    none

/-- The uncaught Python exceptions `resubmit_job` can raise. -/
inductive PyError where
  | attributeError (msg : String)
  | keyError (key : String)
deriving DecidableEq

/-- State touched by `resubmit_job`: the per-name collections (each a list
of documents in insertion order) and the queue of enqueued (task tag, uid)
entries. -/
structure AdminState where
  colls : List (String × List BDoc)
  tasks : List (String × String)
deriving DecidableEq

/-- `get_api_collection(name)` read access (a missing collection is empty). -/
def getColl (name : String) : List (String × List BDoc) → List BDoc
  | [] => []
  | c :: cs => if c.1 = name then c.2 else getColl name cs

/-- `find_one({"uid": uid})` on a list of documents. -/
def findDocByUid (uid : String) : List BDoc → Option BDoc
  | [] => none
  | d :: ds =>
    if lookupKey "uid" d = some (.str uid) then some d else findDocByUid uid ds

/-- `replace_one({"uid": uid}, newDoc)`: replace the first matching document. -/
def replaceDocByUid (uid : String) (newDoc : BDoc) : List BDoc → List BDoc
  | [] => []
  | d :: ds =>
    if lookupKey "uid" d = some (.str uid) then newDoc :: ds
    else d :: replaceDocByUid uid newDoc ds

/-- Replace the first matching document inside the named collection. -/
def replaceInColl (name uid : String) (newDoc : BDoc) (colls : List (String × List BDoc)) :
    List (String × List BDoc) :=
  colls.map (fun c => if c.1 = name then (c.1, replaceDocByUid uid newDoc c.2) else c)

/-- The dispatch chain of lines 124–143 of `routers/admin.py`: which task is
enqueued for a job type (for `"validation"` it depends on the record's
`validation_type`; an unmatched branch enqueues nothing). -/
def resubmitEnqueue (job_type : String) (doc : BDoc) (uid : String) :
    List (String × String) :=
  if job_type = "bicon" then [("bicon", uid)]
  else if job_type = "closeness" then [("closeness", uid)]
  else if job_type = "diamond" then [("diamond", uid)]
  else if job_type = "graphs" then [("graph", uid)]
  else if job_type = "trustrank" then [("trustrank", uid)]
  else if job_type = "must" then [("must", uid)]
  else if job_type = "validation" then
    match lookupKey "validation_type" doc with
    | some (.str "module") => [("validation-module", uid)]
    | some (.str "drug") => [("validation-drug", uid)]
    | some (.str "joint") => [("validation-joint", uid)]
    | _ => []
  else []

/-- Lines 116–145 of `routers/admin.py` (`resubmit_job`): look up the record
by uid in the `{job_type}_` collection; when absent, `doc.items()` on `None`
raises an `AttributeError`; for a non-empty record the dict comprehension
evaluates `KEEP_KEYS[job_type]`, raising a `KeyError` for a job type absent
from the table; otherwise the record is filtered to the allow-listed keys,
`status` is set to `"submitted"`, the stored record is replaced, a task is
enqueued per the dispatch chain, and the uid is returned. -/
def resubmit_job (job_type uid : String) (st : AdminState) :
    Except PyError (String × AdminState) :=
  let collName := job_type ++ "_"
  match findDocByUid uid (getColl collName st.colls) with
  | none => .error (.attributeError "NoneType object has no attribute items")
  | some doc =>
    let filteredE : Except PyError BDoc :=
      if doc.isEmpty then .ok []
      else
        match KEEP_KEYS job_type with
        | none => .error (.keyError job_type)
        | some keep => .ok (doc.filter (fun kv => decide (kv.1 ∈ keep)))
    match filteredE with
    | .error e => .error e
    | .ok filtered =>
      let newDoc := setKey "status" (.str "submitted") filtered
      .ok (uid,
        { colls := replaceInColl collName uid newDoc st.colls
          tasks := st.tasks ++ resubmitEnqueue job_type newDoc uid })

/-! ## The per-record job status machine

One Job Record's observable `status` evolves through atomic MongoDB writes:

* record creation by a submission endpoint (`status = "submitted"`, one
  task enqueued) — the initial state;
* a worker run (`run_diamond`): consumes one enqueued task, writes
  `"running"`, and later writes exactly one terminal status
  (`"completed"`, or `"failed"` directly or through the wrapper's
  exception handler);
* `resubmit_job`: writes `"submitted"` and enqueues one more task, with no
  status guard and no coordination with pending or in-flight runs.

`JobState` tracks the stored status, the number of enqueued-but-unstarted
tasks for the uid, and whether a worker run is between its `"running"`
write and its terminal write. -/

inductive JStatus where
  | submitted
  | running
  | completed
  | failed
deriving DecidableEq

structure JobState where
  status : JStatus
  pending : Nat
  inflight : Bool
deriving DecidableEq

/-- The state right after a submission endpoint created the record. -/
def initJob : JobState := ⟨.submitted, 1, false⟩

/-- The step relation generated by the worker and by resubmission, exactly
as the code allows them to interleave: a worker may pick up any enqueued
task, and `resubmit_job` may fire at any time. -/
inductive JStep : JobState → JobState → Prop where
  | start (s : JobState) (h : 0 < s.pending) (h2 : s.inflight = false) :
      JStep s ⟨.running, s.pending - 1, true⟩
  | finishOk (s : JobState) (h : s.inflight = true) :
      JStep s ⟨.completed, s.pending, false⟩
  | finishErr (s : JobState) (h : s.inflight = true) :
      JStep s ⟨.failed, s.pending, false⟩
  | resubmit (s : JobState) :
      JStep s ⟨.submitted, s.pending + 1, s.inflight⟩

/-- The same machine restricted to quiescent resubmission: `resubmit_job`
fires only when the record has no enqueued-but-unstarted task and no
in-flight worker run. -/
inductive JStepQ : JobState → JobState → Prop where
  | start (s : JobState) (h : 0 < s.pending) (h2 : s.inflight = false) :
      JStepQ s ⟨.running, s.pending - 1, true⟩
  | finishOk (s : JobState) (h : s.inflight = true) :
      JStepQ s ⟨.completed, s.pending, false⟩
  | finishErr (s : JobState) (h : s.inflight = true) :
      JStepQ s ⟨.failed, s.pending, false⟩
  | resubmit (s : JobState) (h : s.pending = 0) (h2 : s.inflight = false) :
      JStepQ s ⟨.submitted, s.pending + 1, false⟩

/-- `PathFrom R s l`: `l` is the sequence of states of a walk of `R`
starting at `s` (so `l.map JobState.status` is the observed status
sequence). -/
inductive PathFrom (R : JobState → JobState → Prop) : JobState → List JobState → Prop where
  | single (s : JobState) : PathFrom R s [s]
  | cons (s t : JobState) (l : List JobState) (hst : R s t) (hp : PathFrom R t l) :
      PathFrom R s (s :: l)

/-- The adjacent status pairs the spec's state machine allows: forward
moves `submitted → running → {completed | failed}`, plus a reset to
`submitted` (resubmission). -/
def specPair (a b : JStatus) : Prop :=
  (a = .submitted ∧ b = .running) ∨
  (a = .running ∧ (b = .completed ∨ b = .failed)) ∨
  b = .submitted

instance : ∀ a b, Decidable (specPair a b) := fun a b => by unfold specPair; infer_instance

/-- Invariant of the quiescent-resubmission machine: at most one task is
ever outstanding, an in-flight worker run means the stored status is
`"running"` and no task is pending, and a pending task means the stored
status is `"submitted"`. -/
def quiescentInv (s : JobState) : Prop :=
  s.pending ≤ 1 ∧
  (s.inflight = true → s.status = .running ∧ s.pending = 0) ∧
  (0 < s.pending → s.status = .submitted)

/-! ## Order lemmas for the string comparator -/

theorem charToNat_inj {a b : Char} (h : a.toNat = b.toNat) : a = b := by
  cases a with
  | mk va ha =>
    cases b with
    | mk vb hb =>
      simp only [Char.toNat] at h
      congr 1
      exact UInt32.ext h

theorem lexLe_total : ∀ as bs, lexLe as bs = true ∨ lexLe bs as = true := by
  intro as
  induction as with
  | nil => intro bs; left; rfl
  | cons a as ih =>
    intro bs
    cases bs with
    | nil => right; rfl
    | cons b bs =>
      by_cases h1 : a.toNat < b.toNat
      · left; simp [lexLe, h1]
      · by_cases h2 : b.toNat < a.toNat
        · right; simp [lexLe, h2]
        · rcases ih bs with h | h
          · left; simp [lexLe, h1, h2, h]
          · right; simp [lexLe, h1, h2, h]

theorem lexLe_trans : ∀ as bs cs, lexLe as bs = true → lexLe bs cs = true →
    lexLe as cs = true := by
  intro as
  induction as with
  | nil => intro bs cs _ _; rfl
  | cons a as ih =>
    intro bs cs hab hbc
    cases bs with
    | nil => simp [lexLe] at hab
    | cons b bs =>
      cases cs with
      | nil => simp [lexLe] at hbc
      | cons c cs =>
        simp only [lexLe] at hab hbc ⊢
        by_cases h1 : a.toNat < b.toNat
        · by_cases h2 : b.toNat < c.toNat
          · simp [Nat.lt_trans h1 h2]
          · by_cases h3 : c.toNat < b.toNat
            · simp [h2, h3] at hbc
            · have hbc' : b.toNat = c.toNat := Nat.le_antisymm (Nat.le_of_not_lt h3) (Nat.le_of_not_lt h2)
              simp [hbc' ▸ h1]
        · by_cases h2 : b.toNat < a.toNat
          · simp [h1, h2] at hab
          · have hab' : a.toNat = b.toNat := Nat.le_antisymm (Nat.le_of_not_lt h2) (Nat.le_of_not_lt h1)
            simp only [h1, if_neg h1, if_neg h2, if_false, if_true] at hab
            by_cases h3 : b.toNat < c.toNat
            · simp [hab' ▸ h3]
            · by_cases h4 : c.toNat < b.toNat
              · simp [h3, h4] at hbc
              · simp only [h3, h4, if_neg h3, if_neg h4, if_false] at hbc
                have h5 : ¬ a.toNat < c.toNat := hab' ▸ h3
                have h6 : ¬ c.toNat < a.toNat := hab' ▸ h4
                simp [h5, h6, ih bs cs hab hbc]

theorem lexLe_antisymm : ∀ as bs, lexLe as bs = true → lexLe bs as = true → as = bs := by
  intro as
  induction as with
  | nil =>
    intro bs _ hba
    cases bs with
    | nil => rfl
    | cons b bs => simp [lexLe] at hba
  | cons a as ih =>
    intro bs hab hba
    cases bs with
    | nil => simp [lexLe] at hab
    | cons b bs =>
      simp only [lexLe] at hab hba
      by_cases h1 : a.toNat < b.toNat
      · have h2 : ¬ b.toNat < a.toNat := Nat.lt_asymm h1
        simp [h1, h2] at hba
      · by_cases h2 : b.toNat < a.toNat
        · simp [h1, h2] at hab
        · have he : a = b := charToNat_inj (Nat.le_antisymm (Nat.le_of_not_lt h2) (Nat.le_of_not_lt h1))
          simp only [h1, h2, if_neg h1, if_neg h2, if_false] at hab hba
          rw [he, ih bs hab hba]

instance : IsTotal String rStrLe := ⟨fun a b => lexLe_total a.data b.data⟩

instance : IsTrans String rStrLe := ⟨fun a b c => lexLe_trans a.data b.data c.data⟩

instance : IsAntisymm String rStrLe :=
  ⟨fun a b hab hba => by
    cases a; cases b
    exact congrArg String.mk (lexLe_antisymm _ _ hab hba)⟩


theorem pySorted_sorted (l : List String) : List.Sorted rStrLe (pySorted l) :=
  List.sorted_insertionSort rStrLe l

theorem pySorted_perm (l : List String) : List.Perm (pySorted l) l :=
  List.perm_insertionSort rStrLe l

theorem pySorted_eq_of_perm {l₁ l₂ : List String} (h : List.Perm l₁ l₂) :
    pySorted l₁ = pySorted l₂ :=
  List.eq_of_perm_of_sorted ((pySorted_perm l₁).trans (h.trans (pySorted_perm l₂).symm))
    (pySorted_sorted l₁) (pySorted_sorted l₂)

theorem pySortedSet_nodup (l : List String) : (pySortedSet l).Nodup :=
  ((pySorted_perm l.dedup).nodup_iff).mpr l.nodup_dedup

theorem pySortedSet_eq_of_mem_iff {l₁ l₂ : List String}
    (h : ∀ x, x ∈ l₁ ↔ x ∈ l₂) : pySortedSet l₁ = pySortedSet l₂ := by
  apply pySorted_eq_of_perm
  apply List.perm_of_nodup_nodup_toFinset_eq l₁.nodup_dedup l₂.nodup_dedup
  ext x
  simp only [List.mem_toFinset, List.mem_dedup]
  exact h x

/-! ## Helper lemmas -/

theorem all_map_upper_iff {p : String → Bool} {l : List String} :
    (l.map pyUpper).all p = true ↔ ∀ s ∈ l, p (pyUpper s) = true := by
  simp [List.all_eq_true]

/-! ## Claim C6: seed normalisation -/

/-- Claim C6, counterexample: the code performs no majority pattern-match on
mixed seed lists.  For `["2717", "7157", "ABC"]` the majority of seeds are
numeric (the claim's classification says `gene`) but
`normalise_seeds_and_determine_type` classifies every mixed list as
`protein` and leaves the seeds merely upper-cased. -/
theorem claim_C6_counterexample :
    normalise_seeds_and_determine_type ["2717", "7157", "ABC"] =
      (["2717", "7157", "ABC"], "protein") ∧
    claimMajorityClassify ["2717", "7157", "ABC"] = "gene" := by decide

/-- Claim C6 (amended): for every non-empty seed list,
`normalise_seeds_and_determine_type` upper-cases each identifier; when all
identifiers are `ENTREZ.`-prefixed the prefix is stripped and the type is
`gene`; when all are numeric the type is `gene`; when all are
`UNIPROT.`-prefixed the prefix is stripped (type `protein`); any other
(mixed) list is classified `protein` with the seeds only upper-cased —
there is no majority pattern-match. -/
theorem claim_C6 (seeds : List String) (hne : seeds ≠ []) :
    ((normalise_seeds_and_determine_type seeds).2 = "gene" ∨
      (normalise_seeds_and_determine_type seeds).2 = "protein") ∧
    ((∀ s ∈ seeds, pyStartsWith (pyUpper s) "ENTREZ." = true) →
      normalise_seeds_and_determine_type seeds =
        (seeds.map (fun s => pyRemoveAll (pyUpper s) "ENTREZ."), "gene")) ∧
    ((¬ ∀ s ∈ seeds, pyStartsWith (pyUpper s) "ENTREZ." = true) →
      (∀ s ∈ seeds, pyIsNumeric (pyUpper s) = true) →
      normalise_seeds_and_determine_type seeds = (seeds.map pyUpper, "gene")) ∧
    ((¬ ∀ s ∈ seeds, pyStartsWith (pyUpper s) "ENTREZ." = true) →
      (¬ ∀ s ∈ seeds, pyIsNumeric (pyUpper s) = true) →
      (∀ s ∈ seeds, pyStartsWith (pyUpper s) "UNIPROT." = true) →
      normalise_seeds_and_determine_type seeds =
        (seeds.map (fun s => pyRemoveAll (pyUpper s) "UNIPROT."), "protein")) ∧
    ((¬ ∀ s ∈ seeds, pyStartsWith (pyUpper s) "ENTREZ." = true) →
      (¬ ∀ s ∈ seeds, pyIsNumeric (pyUpper s) = true) →
      (¬ ∀ s ∈ seeds, pyStartsWith (pyUpper s) "UNIPROT." = true) →
      normalise_seeds_and_determine_type seeds = (seeds.map pyUpper, "protein")) := by
  refine ⟨?_, ?_, ?_, ?_, ?_⟩
  · simp only [normalise_seeds_and_determine_type]
    split_ifs <;> simp
  · intro hE
    simp only [normalise_seeds_and_determine_type]
    rw [if_pos (all_map_upper_iff.mpr hE)]
    simp [List.map_map, Function.comp_def]
  · intro hNE hN
    simp only [normalise_seeds_and_determine_type]
    rw [if_neg (fun c => hNE (all_map_upper_iff.mp c)), if_pos (all_map_upper_iff.mpr hN)]
  · intro hNE hNN hU
    simp only [normalise_seeds_and_determine_type]
    rw [if_neg (fun c => hNE (all_map_upper_iff.mp c)),
      if_neg (fun c => hNN (all_map_upper_iff.mp c)), if_pos (all_map_upper_iff.mpr hU)]
    simp [List.map_map, Function.comp_def]
  · intro hNE hNN hNU
    simp only [normalise_seeds_and_determine_type]
    rw [if_neg (fun c => hNE (all_map_upper_iff.mp c)),
      if_neg (fun c => hNN (all_map_upper_iff.mp c)),
      if_neg (fun c => hNU (all_map_upper_iff.mp c))]

theorem claim_C6_witness :
    (["ENTREZ.2717", "entrez.7157"] : List String) ≠ [] ∧
    ((normalise_seeds_and_determine_type ["ENTREZ.2717", "entrez.7157"]).2 = "gene" ∨
      (normalise_seeds_and_determine_type ["ENTREZ.2717", "entrez.7157"]).2 = "protein") :=
  ⟨by decide, (claim_C6 ["ENTREZ.2717", "entrez.7157"] (by decide)).1⟩

/-! ## Claim C9: download endpoints -/

/-- Claim C9, counterexample: a DIAMOnD record whose status is
`"submitted"` (not terminal) does not get the claimed 102-equivalent
"still running" response — `diamond_download` only checks for the exact
status `"running"`, so a `"submitted"` job falls through to the artifact
file response. -/
theorem claim_C9_counterexample :
    statusOf "u"
      ⟨[⟨⟨["2717"], "gene", 1, 1, "DEFAULT", "all"⟩, "u", "submitted", none, none⟩], [], 0⟩ =
      some "submitted" ∧
    diamond_download "u"
      ⟨[⟨⟨["2717"], "gene", 1, 1, "DEFAULT", "all"⟩, "u", "submitted", none, none⟩], [], 0⟩ =
      .fileResponse "u.txt" := by decide

/-- Claim C9 (amended): the download endpoints fail with 404 when the uid is
unknown, reply 102 "still running" only when the status is exactly
`"running"`, fail with an explanatory 404 when the status is `"failed"`, and
for every other status — `"completed"` but also the non-terminal
`"submitted"` — return the result artifact response. -/
theorem claim_C9 (uid : String) (st : DiamondState) (trs : List TrustRankRecord) :
    (findDiamondByUid uid st = none →
      diamond_download uid st = .httpError 404 ("No DIAMOnD job with UID " ++ uid)) ∧
    (∀ r, findDiamondByUid uid st = some r →
      (r.status = "running" →
        diamond_download uid st =
          .httpError 102 ("DIAMOnD job with UID " ++ uid ++ " is still running")) ∧
      (r.status ≠ "running" → r.status = "failed" →
        diamond_download uid st =
          .httpError 404 ("No results for DIAMOnD job with UID " ++ uid ++ " (failed)")) ∧
      (r.status ≠ "running" → r.status ≠ "failed" →
        diamond_download uid st = .fileResponse (uid ++ ".txt"))) ∧
    (findTrustRank uid trs = none →
      trustrank_download uid trs = .httpError 404 ("No TrustRank job with UID " ++ uid)) ∧
    (∀ r, findTrustRank uid trs = some r →
      (r.status = "running" →
        trustrank_download uid trs =
          .httpError 102 ("TrustRank job with uid " ++ uid ++ " is still running")) ∧
      (r.status ≠ "running" → r.status = "failed" →
        trustrank_download uid trs =
          .httpError 404 ("No results TrustRank job with UID " ++ uid ++ " (failed)")) ∧
      (r.status ≠ "running" → r.status ≠ "failed" →
        trustrank_download uid trs = .fileResponse (uid ++ ".txt"))) := by
  refine ⟨?_, ?_, ?_, ?_⟩
  · intro h; simp [diamond_download, h]
  · intro r h
    refine ⟨?_, ?_, ?_⟩
    · intro h1; simp [diamond_download, h, h1]
    · intro h1 h2; simp [diamond_download, h, h1, h2]
    · intro h1 h2; simp [diamond_download, h, h1, h2]
  · intro h; simp [trustrank_download, h]
  · intro r h
    refine ⟨?_, ?_, ?_⟩
    · intro h1; simp [trustrank_download, h, h1]
    · intro h1 h2; simp [trustrank_download, h, h1, h2]
    · intro h1 h2; simp [trustrank_download, h, h1, h2]

theorem claim_C9_witness :
    findDiamondByUid "u" emptyDiamondState = none ∧
    diamond_download "u" emptyDiamondState = .httpError 404 "No DIAMOnD job with UID u" :=
  ⟨by decide, (claim_C9 "u" emptyDiamondState []).1 (by decide)⟩

/-! ## Claim C10: resubmission error paths -/

/-- Claim C10: `resubmit_job` has no graceful error path — an unknown uid
raises an `AttributeError` on `None` instead of a 404, and a job type
outside the `KEEP_KEYS` table (such as `robust`, `kpm`, `domino`,
`comorbiditome`) raises a `KeyError` even when the record exists. -/
theorem claim_C10 (jt uid : String) (st : AdminState) :
    (findDocByUid uid (getColl (jt ++ "_") st.colls) = none →
      resubmit_job jt uid st =
        .error (.attributeError "NoneType object has no attribute items")) ∧
    (∀ doc, findDocByUid uid (getColl (jt ++ "_") st.colls) = some doc → doc ≠ [] →
      KEEP_KEYS jt = none → resubmit_job jt uid st = .error (.keyError jt)) ∧
    (KEEP_KEYS "robust" = none ∧ KEEP_KEYS "kpm" = none ∧ KEEP_KEYS "domino" = none ∧
      KEEP_KEYS "comorbiditome" = none) := by
  refine ⟨?_, ?_, by decide⟩
  · intro h; simp [resubmit_job, h]
  · intro doc h hne hkk
    simp [resubmit_job, h, hkk, List.isEmpty_iff, hne]

theorem claim_C10_witness :
    resubmit_job "robust" "u" ⟨[("robust_", [[("uid", .str "u")]])], []⟩ =
      .error (.keyError "robust") ∧
    resubmit_job "diamond" "v" ⟨[], []⟩ =
      .error (.attributeError "NoneType object has no attribute items") :=
  ⟨(claim_C10 "robust" "u" ⟨[("robust_", [[("uid", .str "u")]])], []⟩).2.1
      [("uid", .str "u")] (by decide) (by decide) (by decide),
    (claim_C10 "diamond" "v" ⟨[], []⟩).1 (by decide)⟩

/-! ## Claim C8: validation failures have no side effects -/

theorem submit_of_query_error {dr : DiamondRequest} {e : HErr}
    (he : diamond_query dr = .error e) (u : String) (st : DiamondState) :
    diamond_submit dr u st = (.error e, st) := by
  simp [diamond_submit, he]

/-- Claim C8: a submission with missing/empty seeds, missing `n`, or an
`edges` value outside `{"all", "limited"}` is rejected with a 400/422
`HTTPException` raised before the collection lock is taken; the state —
records, task queue, and lock-acquisition count alike — is returned
untouched. -/
theorem claim_C8 (dr : DiamondRequest) (freshUid : String) (st : DiamondState)
    (h : dr.seeds = none ∨ dr.seeds = some [] ∨ dr.n = none ∨
      (∃ e, dr.edges = some e ∧ e ≠ "all" ∧ e ≠ "limited")) :
    (diamond_submit dr freshUid st).2 = st ∧
    ((diamond_submit dr freshUid st).1 = .error ⟨400, "No seeds submitted"⟩ ∨
      (diamond_submit dr freshUid st).1 =
        .error ⟨400, "Number of results to return is not specified"⟩ ∨
      (diamond_submit dr freshUid st).1 =
        .error ⟨422, "If specified, edges must be limited or all"⟩) := by
  obtain ⟨er, her, hcode⟩ : ∃ er, diamond_query dr = .error er ∧
      (er = ⟨400, "No seeds submitted"⟩ ∨
        er = ⟨400, "Number of results to return is not specified"⟩ ∨
        er = ⟨422, "If specified, edges must be limited or all"⟩) := by
    rcases h with h | h | h | ⟨e, he, h1, h2⟩
    · exact ⟨_, by simp [diamond_query, h], Or.inl rfl⟩
    · exact ⟨_, by simp [diamond_query, h], Or.inl rfl⟩
    · rcases hs : dr.seeds with _ | seeds
      · exact ⟨_, by simp [diamond_query, hs], Or.inl rfl⟩
      · by_cases hemp : seeds.isEmpty = true
        · exact ⟨_, by simp [diamond_query, hs, hemp], Or.inl rfl⟩
        · exact ⟨_, by simp [diamond_query, hs, hemp, h], Or.inr (Or.inl rfl)⟩
    · rcases hs : dr.seeds with _ | seeds
      · exact ⟨_, by simp [diamond_query, hs], Or.inl rfl⟩
      · by_cases hemp : seeds.isEmpty = true
        · exact ⟨_, by simp [diamond_query, hs, hemp], Or.inl rfl⟩
        · rcases hn : dr.n with _ | n
          · exact ⟨_, by simp [diamond_query, hs, hemp, hn], Or.inr (Or.inl rfl)⟩
          · by_cases hn0 : n = 0
            · exact ⟨_, by simp [diamond_query, hs, hemp, hn, hn0], Or.inr (Or.inl rfl)⟩
            · refine ⟨_, ?_, Or.inr (Or.inr rfl)⟩
              simp [diamond_query, hs, hemp, hn, hn0, he, h1, h2]
  rw [submit_of_query_error her]
  rcases hcode with h | h | h <;> subst h
  · exact ⟨rfl, Or.inl rfl⟩
  · exact ⟨rfl, Or.inr (Or.inl rfl)⟩
  · exact ⟨rfl, Or.inr (Or.inr rfl)⟩

theorem claim_C8_witness :
    (diamond_submit ⟨some ["1"], some 5, none, none, some "bogus"⟩ "u" emptyDiamondState).2 =
      emptyDiamondState ∧
    ((diamond_submit ⟨some ["1"], some 5, none, none, some "bogus"⟩ "u" emptyDiamondState).1 =
        .error ⟨400, "No seeds submitted"⟩ ∨
      (diamond_submit ⟨some ["1"], some 5, none, none, some "bogus"⟩ "u" emptyDiamondState).1 =
        .error ⟨400, "Number of results to return is not specified"⟩ ∨
      (diamond_submit ⟨some ["1"], some 5, none, none, some "bogus"⟩ "u" emptyDiamondState).1 =
        .error ⟨422, "If specified, edges must be limited or all"⟩) :=
  claim_C8 ⟨some ["1"], some 5, none, none, some "bogus"⟩ "u" emptyDiamondState
    (Or.inr (Or.inr (Or.inr ⟨"bogus", rfl, by decide, by decide⟩)))

/-! ## Claim C5: resubmission field-scrubbing -/

theorem lookupKey_cons (k : String) (kv : String × BVal) (d : BDoc) :
    lookupKey k (kv :: d) = if kv.1 = k then some kv.2 else lookupKey k d := rfl

theorem findDocByUid_cons (uid : String) (d : BDoc) (ds : List BDoc) :
    findDocByUid uid (d :: ds) =
      if lookupKey "uid" d = some (.str uid) then some d else findDocByUid uid ds := rfl

theorem replaceDocByUid_cons (uid : String) (nd d : BDoc) (ds : List BDoc) :
    replaceDocByUid uid nd (d :: ds) =
      if lookupKey "uid" d = some (.str uid) then nd :: ds
      else d :: replaceDocByUid uid nd ds := rfl

theorem lookupKey_filter (k : String) (P : String × BVal → Bool) (d : BDoc)
    (hP : ∀ kv : String × BVal, kv.1 = k → P kv = true) :
    lookupKey k (d.filter P) = lookupKey k d := by
  induction d with
  | nil => rfl
  | cons kv d ih =>
    rw [List.filter_cons]
    by_cases hk : kv.1 = k
    · rw [if_pos (hP kv hk), lookupKey_cons, lookupKey_cons, if_pos hk, if_pos hk]
    · by_cases hPkv : P kv = true
      · rw [if_pos hPkv, lookupKey_cons, lookupKey_cons, if_neg hk, if_neg hk]
        exact ih
      · rw [if_neg hPkv, lookupKey_cons, if_neg hk]
        exact ih

theorem lookupKey_replaceKey_same (k : String) (v : BVal) (d : BDoc)
    (h : hasKey k d = true) : lookupKey k (replaceKey k v d) = some v := by
  induction d with
  | nil => simp [hasKey] at h
  | cons kv d ih =>
    by_cases hk : kv.1 = k
    · simp [replaceKey, lookupKey_cons, hk]
    · have h' : hasKey k d = true := by simpa [hasKey, hk] using h
      simp only [replaceKey, if_neg hk, lookupKey_cons, if_neg hk]
      exact ih h'

theorem lookupKey_append_single (k : String) (v : BVal) (d : BDoc)
    (h : hasKey k d = false) : lookupKey k (d ++ [(k, v)]) = some v := by
  induction d with
  | nil => simp [lookupKey_cons]
  | cons kv d ih =>
    simp only [hasKey, Bool.or_eq_false_iff, decide_eq_false_iff_not] at h
    rw [List.cons_append, lookupKey_cons, if_neg h.1]
    exact ih h.2

theorem lookupKey_setKey_same (k : String) (v : BVal) (d : BDoc) :
    lookupKey k (setKey k v d) = some v := by
  unfold setKey
  by_cases h : hasKey k d = true
  · rw [if_pos h]; exact lookupKey_replaceKey_same k v d h
  · rw [if_neg h]
    exact lookupKey_append_single k v d (by simpa using h)

theorem lookupKey_replaceKey_ne (k k' : String) (hne : k' ≠ k) (v : BVal) (d : BDoc) :
    lookupKey k' (replaceKey k v d) = lookupKey k' d := by
  induction d with
  | nil => rfl
  | cons kv d ih =>
    by_cases hk : kv.1 = k
    · have h1 : ¬ ((k, v) : String × BVal).1 = k' := fun c => hne c.symm
      have h2 : ¬ kv.1 = k' := fun c => hne (hk.symm.trans c).symm
      simp only [replaceKey, if_pos hk, lookupKey_cons, if_neg h1, if_neg h2]
      exact ih
    · simp only [replaceKey, if_neg hk, lookupKey_cons]
      by_cases h3 : kv.1 = k'
      · rw [if_pos h3, if_pos h3]
      · rw [if_neg h3, if_neg h3]; exact ih

theorem lookupKey_append_single_ne (k k' : String) (hne : k' ≠ k) (v : BVal) (d : BDoc) :
    lookupKey k' (d ++ [(k, v)]) = lookupKey k' d := by
  induction d with
  | nil =>
    rw [List.nil_append, lookupKey_cons, if_neg (fun c => hne c.symm)]
  | cons kv d ih =>
    rw [List.cons_append, lookupKey_cons, lookupKey_cons]
    by_cases h3 : kv.1 = k'
    · rw [if_pos h3, if_pos h3]
    · rw [if_neg h3, if_neg h3]; exact ih

theorem lookupKey_setKey_ne (k k' : String) (hne : k' ≠ k) (v : BVal) (d : BDoc) :
    lookupKey k' (setKey k v d) = lookupKey k' d := by
  unfold setKey
  by_cases h : hasKey k d = true
  · rw [if_pos h]; exact lookupKey_replaceKey_ne k k' hne v d
  · rw [if_neg h]; exact lookupKey_append_single_ne k k' hne v d

theorem mem_replaceKey {k : String} {v : BVal} {d : BDoc} :
    ∀ kv ∈ replaceKey k v d, kv.1 = k ∨ kv ∈ d := by
  intro kv hkv
  induction d with
  | nil => simp [replaceKey] at hkv
  | cons kv0 d ih =>
    simp only [replaceKey] at hkv
    rcases List.mem_cons.mp hkv with h | h
    · by_cases hk : kv0.1 = k
      · rw [if_pos hk] at h; left; rw [h]
      · rw [if_neg hk] at h; right; rw [h]; exact List.mem_cons_self _ _
    · rcases ih h with h2 | h2
      · left; exact h2
      · right; exact List.mem_cons_of_mem _ h2

theorem keys_setKey (k : String) (v : BVal) (d : BDoc) :
    ∀ kv ∈ setKey k v d, kv.1 = k ∨ kv.1 ∈ d.map Prod.fst := by
  intro kv hkv
  unfold setKey at hkv
  by_cases h : hasKey k d = true
  · rw [if_pos h] at hkv
    rcases mem_replaceKey kv hkv with h2 | h2
    · left; exact h2
    · right; exact List.mem_map.mpr ⟨kv, h2, rfl⟩
  · rw [if_neg h] at hkv
    rcases List.mem_append.mp hkv with h2 | h2
    · right; exact List.mem_map.mpr ⟨kv, h2, rfl⟩
    · left
      have hk : kv = (k, v) := by simpa using h2
      rw [hk]

theorem getColl_cons (name : String) (c : String × List BDoc) (cs : List (String × List BDoc)) :
    getColl name (c :: cs) = if c.1 = name then c.2 else getColl name cs := rfl

theorem getColl_replaceInColl (name uid : String) (nd : BDoc)
    (colls : List (String × List BDoc)) :
    getColl name (replaceInColl name uid nd colls) =
      replaceDocByUid uid nd (getColl name colls) := by
  induction colls with
  | nil => rfl
  | cons c cs ih =>
    simp only [replaceInColl, List.map_cons]
    by_cases h : c.1 = name
    · rw [if_pos h, getColl_cons, getColl_cons, if_pos h, if_pos h]
    · rw [if_neg h, getColl_cons, getColl_cons, if_neg h, if_neg h]
      exact ih

theorem findDocByUid_some_lookup {uid : String} {docs : List BDoc} {doc : BDoc}
    (h : findDocByUid uid docs = some doc) :
    lookupKey "uid" doc = some (.str uid) := by
  induction docs with
  | nil => simp [findDocByUid] at h
  | cons d0 ds ih =>
    by_cases h0 : lookupKey "uid" d0 = some (.str uid)
    · rw [findDocByUid_cons, if_pos h0] at h
      cases h; exact h0
    · rw [findDocByUid_cons, if_neg h0] at h
      exact ih h

theorem findDocByUid_replace (uid : String) (nd : BDoc) (docs : List BDoc)
    (hnd : lookupKey "uid" nd = some (.str uid)) (doc : BDoc)
    (h : findDocByUid uid docs = some doc) :
    findDocByUid uid (replaceDocByUid uid nd docs) = some nd := by
  induction docs with
  | nil => simp [findDocByUid] at h
  | cons d0 ds ih =>
    by_cases h0 : lookupKey "uid" d0 = some (.str uid)
    · rw [replaceDocByUid_cons, if_pos h0, findDocByUid_cons, if_pos hnd]
    · rw [replaceDocByUid_cons, if_neg h0, findDocByUid_cons, if_neg h0]
      rw [findDocByUid_cons, if_neg h0] at h
      exact ih h

theorem keepKeysSpec (jt : String) (keep : List String) (h : KEEP_KEYS jt = some keep) :
    "uid" ∈ keep ∧ "error" ∉ keep ∧ "result" ∉ keep ∧ "results" ∉ keep := by
  unfold KEEP_KEYS at h
  split_ifs at h
  all_goals first
    | (injection h with h2; subst h2; decide)
    | (exact Option.noConfusion h)

/-- Claim C5: for a job type in the `KEEP_KEYS` table and an existing
record, `resubmit_job` returns the same uid and replaces the stored record
with one that carries only allow-listed fields plus `status = "submitted"`;
the `uid` field is retained, and any previously set `error`/`result`/
`results` fields are gone. -/
theorem claim_C5 (jt uid : String) (st : AdminState) (keep : List String) (doc : BDoc)
    (hkk : KEEP_KEYS jt = some keep)
    (hfind : findDocByUid uid (getColl (jt ++ "_") st.colls) = some doc) :
    ∃ st', resubmit_job jt uid st = .ok (uid, st') ∧
      ∃ d', findDocByUid uid (getColl (jt ++ "_") st'.colls) = some d' ∧
        lookupKey "status" d' = some (.str "submitted") ∧
        lookupKey "uid" d' = some (.str uid) ∧
        (∀ kv ∈ d', kv.1 ∈ keep ∨ kv.1 = "status") ∧
        (∀ kv ∈ d', kv.1 ≠ "error" ∧ kv.1 ≠ "result" ∧ kv.1 ≠ "results") := by
  have huid : lookupKey "uid" doc = some (.str uid) := findDocByUid_some_lookup hfind
  have hdocne : doc ≠ [] := by
    intro hd; rw [hd] at huid; simp [lookupKey] at huid
  obtain ⟨hkuid, hkerr, hkres, hkress⟩ := keepKeysSpec jt keep hkk
  have hfiltuid : ∀ kv : String × BVal, kv.1 = "uid" →
      (decide (kv.1 ∈ keep)) = true := by
    intro kv hk; rw [hk]; simpa using hkuid
  have hlookup_d' :
      lookupKey "uid" (setKey "status" (.str "submitted")
        (doc.filter (fun kv => decide (kv.1 ∈ keep)))) = some (.str uid) := by
    rw [lookupKey_setKey_ne _ _ (by decide), lookupKey_filter _ _ _ hfiltuid]
    exact huid
  refine ⟨⟨replaceInColl (jt ++ "_") uid (setKey "status" (.str "submitted")
      (doc.filter (fun kv => decide (kv.1 ∈ keep)))) st.colls,
    st.tasks ++ resubmitEnqueue jt (setKey "status" (.str "submitted")
      (doc.filter (fun kv => decide (kv.1 ∈ keep)))) uid⟩, ?_, ?_⟩
  · simp [resubmit_job, hfind, hkk, List.isEmpty_iff, hdocne]
  · refine ⟨setKey "status" (.str "submitted")
      (doc.filter (fun kv => decide (kv.1 ∈ keep))), ?_, ?_, ?_, ?_, ?_⟩
    · rw [getColl_replaceInColl]
      exact findDocByUid_replace _ _ _ hlookup_d' doc hfind
    · exact lookupKey_setKey_same _ _ _
    · exact hlookup_d'
    · intro kv hkv
      rcases keys_setKey _ _ _ kv hkv with h | h
      · right; exact h
      · left
        obtain ⟨kv', hkv', hfst⟩ := List.mem_map.mp h
        have := List.of_mem_filter hkv'
        rw [← hfst]; simpa using this
    · intro kv hkv
      rcases keys_setKey _ _ _ kv hkv with h | h
      · rw [h]; refine ⟨by decide, by decide, by decide⟩
      · obtain ⟨kv', hkv', hfst⟩ := List.mem_map.mp h
        have hin : kv.1 ∈ keep := by
          have := List.of_mem_filter hkv'
          rw [← hfst]; simpa using this
        exact ⟨fun c => hkerr (c ▸ hin), fun c => hkres (c ▸ hin), fun c => hkress (c ▸ hin)⟩

theorem claim_C5_witness :
    ∃ st', resubmit_job "diamond" "u"
        ⟨[("diamond_", [[("uid", .str "u"), ("seeds", .listStr ["1"]),
          ("status", .str "failed"), ("error", .str "boom")]])], []⟩ = .ok ("u", st') ∧
      ∃ d', findDocByUid "u" (getColl ("diamond" ++ "_") st'.colls) = some d' ∧
        lookupKey "status" d' = some (.str "submitted") ∧
        lookupKey "uid" d' = some (.str "u") ∧
        (∀ kv ∈ d', kv.1 ∈ ["seeds", "seed_type", "n", "alpha", "network", "edges",
          "uid", "_id"] ∨ kv.1 = "status") ∧
        (∀ kv ∈ d', kv.1 ≠ "error" ∧ kv.1 ≠ "result" ∧ kv.1 ≠ "results") :=
  claim_C5 "diamond" "u"
    ⟨[("diamond_", [[("uid", .str "u"), ("seeds", .listStr ["1"]),
      ("status", .str "failed"), ("error", .str "boom")]])], []⟩
    ["seeds", "seed_type", "n", "alpha", "network", "edges", "uid", "_id"]
    [("uid", .str "u"), ("seeds", .listStr ["1"]), ("status", .str "failed"),
      ("error", .str "boom")]
    (by decide) (by decide)

/-! ## Claim C4: worker failure-to-status mapping -/

theorem findRecU_cons (uid : String) (r : DiamondRecord) (rs : List DiamondRecord) :
    findRecU uid (r :: rs) = if r.uid = uid then some r else findRecU uid rs := rfl

theorem updateFirstDiamond_cons (uid : String) (f : DiamondRecord → DiamondRecord)
    (r : DiamondRecord) (rs : List DiamondRecord) :
    updateFirstDiamond uid f (r :: rs) =
      if r.uid = uid then f r :: rs else r :: updateFirstDiamond uid f rs := rfl

theorem findRecU_updateFirst (uid : String) (f : DiamondRecord → DiamondRecord)
    (hf : ∀ r, (f r).uid = r.uid) :
    ∀ (rs : List DiamondRecord) (d : DiamondRecord), findRecU uid rs = some d →
      findRecU uid (updateFirstDiamond uid f rs) = some (f d) := by
  intro rs
  induction rs with
  | nil => intro d h; simp [findRecU] at h
  | cons r rs ih =>
    intro d h
    by_cases hr : r.uid = uid
    · rw [findRecU_cons, if_pos hr] at h
      cases h
      rw [updateFirstDiamond_cons, if_pos hr, findRecU_cons, if_pos (by rw [hf]; exact hr)]
    · rw [findRecU_cons, if_neg hr] at h
      rw [updateFirstDiamond_cons, if_neg hr, findRecU_cons, if_neg hr]
      exact ih d h

theorem findDiamondByUid_update (uid : String) (f : DiamondRecord → DiamondRecord)
    (hf : ∀ r, (f r).uid = r.uid) (st : DiamondState) (d : DiamondRecord)
    (h : findDiamondByUid uid st = some d) :
    findDiamondByUid uid (updateDiamond uid f st) = some (f d) :=
  findRecU_updateFirst uid f hf st.records d h

theorem statusOf_eq {uid : String} {st : DiamondState} {r : DiamondRecord}
    (h : findDiamondByUid uid st = some r) : statusOf uid st = some r.status := by
  simp [statusOf, h]

theorem errorOf_eq {uid : String} {st : DiamondState} {r : DiamondRecord}
    (h : findDiamondByUid uid st = some r) : errorOf uid st = some r.error := by
  simp [errorOf, h]

theorem resultsOf_eq {uid : String} {st : DiamondState} {r : DiamondRecord}
    (h : findDiamondByUid uid st = some r) : resultsOf uid st = some r.results := by
  simp [resultsOf, h]

/-- Claim C4: when the record exists, a worker run always ends in a
terminal Job Record state and never re-raises (the wrapper is a total state
transformer and leaves the task queue alone): an exception or a non-zero
exit (or an undefined network/seed-type pair) leaves `status = "failed"`
with the captured message in `error`; a successful run leaves
`status = "completed"` with the parsed output in `results`. -/
theorem claim_C4 (exec : ExecOutcome) (uid : String) (st : DiamondState) (d : DiamondRecord)
    (hfind : findDiamondByUid uid st = some d) :
    (run_diamond_wrapper exec uid st).tasks = st.tasks ∧
    (QUERY_MAP d.query.seed_type d.query.network = none →
      statusOf uid (run_diamond_wrapper exec uid st) = some "failed" ∧
      errorOf uid (run_diamond_wrapper exec uid st) =
        some (some (incompatMessage d.query.network d.query.seed_type))) ∧
    (∀ qtext, QUERY_MAP d.query.seed_type d.query.network = some qtext →
      (∀ msg, exec = .raises msg →
        statusOf uid (run_diamond_wrapper exec uid st) = some "failed" ∧
        errorOf uid (run_diamond_wrapper exec uid st) = some (some msg)) ∧
      (∀ code, exec = .exitsNonzero code →
        statusOf uid (run_diamond_wrapper exec uid st) = some "failed" ∧
        errorOf uid (run_diamond_wrapper exec uid st) =
          some (some (diamondExitMessage code))) ∧
      (∀ res, exec = .succeeds res →
        statusOf uid (run_diamond_wrapper exec uid st) = some "completed" ∧
        resultsOf uid (run_diamond_wrapper exec uid st) = some (some res))) := by
  have hA : findDiamondByUid uid
      (updateDiamond uid (fun r => { r with status := "running" }) st) =
      some { d with status := "running" } :=
    findDiamondByUid_update uid (fun r => { r with status := "running" }) (fun r => rfl) st d hfind
  refine ⟨?_, ?_, ?_⟩
  · cases hq : QUERY_MAP d.query.seed_type d.query.network with
    | none => simp [run_diamond_wrapper, run_diamond, hfind, hq, updateDiamond]
    | some qt => cases exec <;> simp [run_diamond_wrapper, run_diamond, hfind, hq, updateDiamond]
  · intro hq
    have hw : run_diamond_wrapper exec uid st =
        updateDiamond uid
          (fun r => { r with status := "failed", error := some (incompatMessage d.query.network d.query.seed_type) })
          (updateDiamond uid (fun r => { r with status := "running" }) st) := by
      simp [run_diamond_wrapper, run_diamond, hfind, hq]
    have hB := findDiamondByUid_update uid
      (fun r => { r with status := "failed", error := some (incompatMessage d.query.network d.query.seed_type) })
      (fun r => rfl) _ _ hA
    rw [hw]
    exact ⟨statusOf_eq hB, errorOf_eq hB⟩
  · intro qtext hq
    refine ⟨?_, ?_, ?_⟩
    · intro msg hexec
      subst hexec
      have hw : run_diamond_wrapper (.raises msg) uid st =
          updateDiamond uid (fun r => { r with status := "failed", error := some msg })
            (updateDiamond uid (fun r => { r with status := "running" }) st) := by
        simp [run_diamond_wrapper, run_diamond, hfind, hq]
      have hB := findDiamondByUid_update uid
        (fun r => { r with status := "failed", error := some msg }) (fun r => rfl) _ _ hA
      rw [hw]
      exact ⟨statusOf_eq hB, errorOf_eq hB⟩
    · intro code hexec
      subst hexec
      have hw : run_diamond_wrapper (.exitsNonzero code) uid st =
          updateDiamond uid
            (fun r => { r with status := "failed", error := some (diamondExitMessage code) })
            (updateDiamond uid (fun r => { r with status := "running" }) st) := by
        simp [run_diamond_wrapper, run_diamond, hfind, hq]
      have hB := findDiamondByUid_update uid
        (fun r => { r with status := "failed", error := some (diamondExitMessage code) })
        (fun r => rfl) _ _ hA
      rw [hw]
      exact ⟨statusOf_eq hB, errorOf_eq hB⟩
    · intro res hexec
      subst hexec
      have hw : run_diamond_wrapper (.succeeds res) uid st =
          updateDiamond uid
            (fun r => { r with status := "completed", results := some res })
            (updateDiamond uid (fun r => { r with status := "running" }) st) := by
        simp [run_diamond_wrapper, run_diamond, hfind, hq]
      have hB := findDiamondByUid_update uid
        (fun r => { r with status := "completed", results := some res })
        (fun r => rfl) _ _ hA
      rw [hw]
      exact ⟨statusOf_eq hB, resultsOf_eq hB⟩

set_option maxRecDepth 8000 in
theorem claim_C4_witness :
    statusOf "u" (run_diamond_wrapper (.raises "boom") "u"
      ⟨[⟨⟨["2717"], "gene", 1, 1, "DEFAULT", "all"⟩, "u", "submitted", none, none⟩], [], 0⟩) =
      some "failed" ∧
    errorOf "u" (run_diamond_wrapper (.raises "boom") "u"
      ⟨[⟨⟨["2717"], "gene", 1, 1, "DEFAULT", "all"⟩, "u", "submitted", none, none⟩], [], 0⟩) =
      some (some "boom") :=
  ((claim_C4 (.raises "boom") "u"
      ⟨[⟨⟨["2717"], "gene", 1, 1, "DEFAULT", "all"⟩, "u", "submitted", none, none⟩], [], 0⟩
      ⟨⟨["2717"], "gene", 1, 1, "DEFAULT", "all"⟩, "u", "submitted", none, none⟩
      (by decide)).2.2 PPI_BASED_GGI_QUERY (by decide)).1 "boom" rfl

/-! ## Claim C1: dedup idempotence of submission -/

theorem findRecQ_cons (q : DiamondQuery) (r : DiamondRecord) (rs : List DiamondRecord) :
    findRecQ q (r :: rs) = if r.query = q then some r else findRecQ q rs := rfl

theorem findRecQ_append_right {q : DiamondQuery} {rs : List DiamondRecord}
    (h : findRecQ q rs = none) (r : DiamondRecord) (hr : r.query = q) :
    findRecQ q (rs ++ [r]) = some r := by
  induction rs with
  | nil => simp [findRecQ, hr]
  | cons a rs ih =>
    rw [findRecQ_cons] at h
    by_cases ha : a.query = q
    · rw [if_pos ha] at h; exact Option.noConfusion h
    · rw [if_neg ha] at h
      rw [List.cons_append, findRecQ_cons, if_neg ha]
      exact ih h

theorem findRecQ_sameJobs {q : DiamondQuery} {rs1 rs2 : List DiamondRecord}
    (h : List.Forall₂ (fun a b => a.query = b.query ∧ a.uid = b.uid) rs1 rs2) :
    ∀ {r1}, findRecQ q rs1 = some r1 → ∃ r2, findRecQ q rs2 = some r2 ∧ r2.uid = r1.uid := by
  induction h with
  | nil => intro r1 h1; exact Option.noConfusion h1
  | @cons a b l1 l2 hab htail ih =>
    intro r1 h1
    rw [findRecQ_cons] at h1
    by_cases hqa : a.query = q
    · rw [if_pos hqa] at h1
      cases h1
      refine ⟨b, ?_, hab.2.symm⟩
      rw [findRecQ_cons, if_pos (hab.1 ▸ hqa)]
    · rw [if_neg hqa] at h1
      obtain ⟨r2, hr2, hu⟩ := ih h1
      refine ⟨r2, ?_, hu⟩
      rw [findRecQ_cons, if_neg (fun c => hqa (hab.1 ▸ c))]
      exact hr2

theorem all_perm_eq {l1 l2 : List String} (h : List.Perm l1 l2) (p : String → Bool) :
    l1.all p = l2.all p := by
  by_cases hc : l1.all p = true
  · rw [hc]
    symm
    rw [List.all_eq_true] at hc ⊢
    intro x hx
    exact hc x (h.mem_iff.mpr hx)
  · have hc2 : ¬ l2.all p = true := by
      intro c
      apply hc
      rw [List.all_eq_true] at c ⊢
      intro x hx
      exact c x (h.mem_iff.mp hx)
    rw [Bool.not_eq_true] at hc hc2
    rw [hc, hc2]

theorem normalise_perm {s1 s2 : List String} (h : List.Perm s1 s2) :
    (normalise_seeds_and_determine_type s1).2 = (normalise_seeds_and_determine_type s2).2 ∧
    List.Perm (normalise_seeds_and_determine_type s1).1
      (normalise_seeds_and_determine_type s2).1 := by
  have hu : List.Perm (s1.map pyUpper) (s2.map pyUpper) := h.map pyUpper
  have hE := all_perm_eq hu (fun s => pyStartsWith s "ENTREZ.")
  have hN := all_perm_eq hu pyIsNumeric
  have hU := all_perm_eq hu (fun s => pyStartsWith s "UNIPROT.")
  simp only [normalise_seeds_and_determine_type]
  rw [← hE, ← hN, ← hU]
  split_ifs
  · exact ⟨rfl, hu.map _⟩
  · exact ⟨rfl, hu⟩
  · exact ⟨rfl, hu.map _⟩
  · exact ⟨rfl, hu⟩

theorem diamond_query_perm (dr : DiamondRequest) (s1 s2 : List String)
    (h : List.Perm s1 s2) :
    diamond_query { dr with seeds := some s1 } = diamond_query { dr with seeds := some s2 } := by
  by_cases h1 : s1.isEmpty = true
  · have h2 : s2.isEmpty = true := by
      rw [List.isEmpty_iff] at h1 ⊢
      exact (h1 ▸ h).symm.eq_nil
    simp [diamond_query, h1, h2]
  · have h2 : ¬ s2.isEmpty = true := by
      rw [List.isEmpty_iff] at h1 ⊢
      intro c
      exact h1 ((c ▸ h.symm).symm.eq_nil)
    have hns := normalise_perm h
    rcases hn : dr.n with _ | n
    · simp [diamond_query, h1, h2, hn]
    · by_cases hn0 : n = 0
      · simp [diamond_query, h1, h2, hn, hn0]
      · simp only [diamond_query, h1, h2, hn, hn0, if_neg, if_false]
        rw [pySorted_eq_of_perm hns.2, hns.1]

theorem submit_found {dr : DiamondRequest} {q : DiamondQuery} {r : DiamondRecord}
    (u : String) (st : DiamondState) (hq : diamond_query dr = .ok q)
    (hf : findDiamondByQuery q st = some r) :
    diamond_submit dr u st = (.ok r.uid, { st with lockAcq := st.lockAcq + 1 }) := by
  have hf2 : findDiamondByQuery q { st with lockAcq := st.lockAcq + 1 } = some r := hf
  simp [diamond_submit, hq, hf2]

theorem submit_new {dr : DiamondRequest} {q : DiamondQuery}
    (u : String) (st : DiamondState) (hq : diamond_query dr = .ok q)
    (hf : findDiamondByQuery q st = none) :
    diamond_submit dr u st =
      (.ok u, ⟨st.records ++ [⟨q, u, "submitted", none, none⟩],
        st.tasks ++ [u], st.lockAcq + 1⟩) := by
  have hf2 : findDiamondByQuery q { st with lockAcq := st.lockAcq + 1 } = none := hf
  simp [diamond_submit, hq, hf2]

/-- Claim C1: submission is idempotent under canonical-query equivalence.
Normalisation makes seed order irrelevant and omitted optional fields equal
to their documented defaults (`alpha = 1`, `network = "DEFAULT"`,
`edges = "all"`); and a second submission of the same request against any
state whose records keep the first submission's queries and uids (statuses
arbitrary — in particular `"failed"`) returns the first call's uid, inserts
no record, and enqueues no task. -/
theorem claim_C1 :
    (∀ (dr : DiamondRequest) (s1 s2 : List String), List.Perm s1 s2 →
      diamond_query { dr with seeds := some s1 } =
        diamond_query { dr with seeds := some s2 }) ∧
    (∀ dr : DiamondRequest,
      diamond_query { dr with alpha := none } = diamond_query { dr with alpha := some 1 }) ∧
    (∀ dr : DiamondRequest,
      diamond_query { dr with network := none } =
        diamond_query { dr with network := some "DEFAULT" }) ∧
    (∀ dr : DiamondRequest,
      diamond_query { dr with edges := none } = diamond_query { dr with edges := some "all" }) ∧
    (∀ (dr : DiamondRequest) (u1 u2 x : String) (st st1 st2 : DiamondState),
      diamond_submit dr u1 st = (.ok x, st1) → SameJobs st1 st2 →
      (diamond_submit dr u2 st2).1 = .ok x ∧
      (diamond_submit dr u2 st2).2.records = st2.records ∧
      (diamond_submit dr u2 st2).2.tasks = st2.tasks) := by
  refine ⟨fun dr s1 s2 h => diamond_query_perm dr s1 s2 h, ?_, ?_, ?_, ?_⟩
  · intro dr
    rcases hs : dr.seeds with _ | seeds <;> rcases hn : dr.n with _ | n <;>
      simp [diamond_query, hs, hn]
  · intro dr
    rcases hs : dr.seeds with _ | seeds <;> rcases hn : dr.n with _ | n <;>
      simp [diamond_query, hs, hn]
  · intro dr
    rcases hs : dr.seeds with _ | seeds <;> rcases hn : dr.n with _ | n <;>
      simp [diamond_query, hs, hn]
  · intro dr u1 u2 x st st1 st2 hsub hsame
    rcases hq : diamond_query dr with er | q
    · rw [submit_of_query_error hq] at hsub
      exact absurd (congrArg Prod.fst hsub) (by simp)
    · have hrec : ∃ r1, findDiamondByQuery q st1 = some r1 ∧ r1.uid = x := by
        cases hf : findDiamondByQuery q st with
        | some r =>
          rw [submit_found u1 st hq hf] at hsub
          have h1 := congrArg Prod.fst hsub
          have h2 := congrArg Prod.snd hsub
          simp only [Except.ok.injEq] at h1
          simp only at h2
          refine ⟨r, ?_, h1⟩
          rw [← h2]
          exact hf
        | none =>
          rw [submit_new u1 st hq hf] at hsub
          have h1 := congrArg Prod.fst hsub
          have h2 := congrArg Prod.snd hsub
          simp only [Except.ok.injEq] at h1
          simp only at h2
          refine ⟨⟨q, u1, "submitted", none, none⟩, ?_, h1⟩
          rw [← h2]
          exact findRecQ_append_right hf _ rfl
      obtain ⟨r1, hr1, hx⟩ := hrec
      obtain ⟨r2, hr2, hu⟩ := findRecQ_sameJobs hsame hr1
      rw [submit_found u2 st2 hq hr2]
      exact ⟨by rw [hu, hx], rfl, rfl⟩

theorem claim_C1_witness :
    (diamond_submit ⟨some ["7157", "2717"], some 50, none, none, none⟩ "u2"
      ⟨[⟨⟨["2717", "7157"], "gene", 50, 1, "DEFAULT", "all"⟩, "u1", "failed",
        some "boom", none⟩], ["u1"], 1⟩).1 = .ok "u1" ∧
    (diamond_submit ⟨some ["7157", "2717"], some 50, none, none, none⟩ "u2"
      ⟨[⟨⟨["2717", "7157"], "gene", 50, 1, "DEFAULT", "all"⟩, "u1", "failed",
        some "boom", none⟩], ["u1"], 1⟩).2.records =
      [⟨⟨["2717", "7157"], "gene", 50, 1, "DEFAULT", "all"⟩, "u1", "failed",
        some "boom", none⟩] ∧
    (diamond_submit ⟨some ["7157", "2717"], some 50, none, none, none⟩ "u2"
      ⟨[⟨⟨["2717", "7157"], "gene", 50, 1, "DEFAULT", "all"⟩, "u1", "failed",
        some "boom", none⟩], ["u1"], 1⟩).2.tasks = ["u1"] :=
  claim_C1.2.2.2.2 ⟨some ["7157", "2717"], some 50, none, none, none⟩ "u1" "u2" "u1"
    emptyDiamondState
    ⟨[⟨⟨["2717", "7157"], "gene", 50, 1, "DEFAULT", "all"⟩, "u1", "submitted", none, none⟩],
      ["u1"], 1⟩
    ⟨[⟨⟨["2717", "7157"], "gene", 50, 1, "DEFAULT", "all"⟩, "u1", "failed",
      some "boom", none⟩], ["u1"], 1⟩
    (by decide) (List.Forall₂.cons ⟨rfl, rfl⟩ List.Forall₂.nil)

/-! ## Claim C3: the job status state machine -/

theorem pathFrom_head {R : JobState → JobState → Prop} {s : JobState} {l : List JobState}
    (h : PathFrom R s l) : ∃ l', l = s :: l' := by
  cases h with
  | single => exact ⟨[], rfl⟩
  | cons s t l hst hp => exact ⟨l, rfl⟩

theorem stepQ_preserves {s t : JobState} (hs : quiescentInv s) (h : JStepQ s t) :
    quiescentInv t := by
  obtain ⟨hs1, hs2, hs3⟩ := hs
  cases h with
  | start h h2 =>
    refine ⟨?_, ?_, ?_⟩ <;> dsimp only
    · omega
    · intro _; exact ⟨rfl, by omega⟩
    · intro hp; exact absurd hp (by omega)
  | finishOk h =>
    have hp0 : s.pending = 0 := (hs2 h).2
    refine ⟨?_, ?_, ?_⟩ <;> dsimp only
    · omega
    · intro c; exact Bool.noConfusion c
    · intro hp; exact absurd hp (by omega)
  | finishErr h =>
    have hp0 : s.pending = 0 := (hs2 h).2
    refine ⟨?_, ?_, ?_⟩ <;> dsimp only
    · omega
    · intro c; exact Bool.noConfusion c
    · intro hp; exact absurd hp (by omega)
  | resubmit h h2 =>
    refine ⟨?_, ?_, ?_⟩ <;> dsimp only
    · omega
    · intro c; exact Bool.noConfusion c
    · intro _; rfl

theorem stepQ_pair {s t : JobState} (hs : quiescentInv s) (h : JStepQ s t) :
    specPair s.status t.status := by
  cases h with
  | start h h2 => exact Or.inl ⟨hs.2.2 h, rfl⟩
  | finishOk h => exact Or.inr (Or.inl ⟨(hs.2.1 h).1, Or.inl rfl⟩)
  | finishErr h => exact Or.inr (Or.inl ⟨(hs.2.1 h).1, Or.inr rfl⟩)
  | resubmit h h2 => exact Or.inr (Or.inr rfl)

theorem pathQ_chain : ∀ (s : JobState) (l : List JobState), PathFrom JStepQ s l →
    quiescentInv s → List.Chain' specPair (l.map JobState.status) := by
  intro s l h
  induction h with
  | single s => intro _; simp
  | cons s t l hst hp ih =>
    intro hs
    obtain ⟨l', hl⟩ := pathFrom_head hp
    subst hl
    rw [List.map_cons, List.map_cons, List.chain'_cons]
    refine ⟨stepQ_pair hs hst, ?_⟩
    rw [← List.map_cons]
    exact ih (stepQ_preserves hs hst)

/-- Claim C3, counterexample: resubmitting a job whose task is still
enqueued (here: resubmission straight after submission, before any worker
has started) double-enqueues the work; the second run re-marks the record
`"running"` after the first run already marked it `"completed"` — a
backward move the claimed pattern forbids.  The walk below is generated
entirely by the unrestricted step relation of submission, worker runs and
`resubmit_job`. -/
theorem claim_C3_counterexample :
    PathFrom JStep initJob
      [⟨.submitted, 1, false⟩, ⟨.submitted, 2, false⟩, ⟨.running, 1, true⟩,
        ⟨.completed, 1, false⟩, ⟨.running, 0, true⟩, ⟨.completed, 0, false⟩] ∧
    ¬ List.Chain' specPair
      ([⟨.submitted, 1, false⟩, ⟨.submitted, 2, false⟩, ⟨.running, 1, true⟩,
        ⟨.completed, 1, false⟩, ⟨.running, 0, true⟩,
        ⟨.completed, 0, false⟩].map JobState.status) := by
  constructor
  · exact .cons _ _ _ (JStep.resubmit ⟨.submitted, 1, false⟩)
      (.cons _ _ _ (JStep.start ⟨.submitted, 2, false⟩ (by decide) rfl)
        (.cons _ _ _ (JStep.finishOk ⟨.running, 1, true⟩ rfl)
          (.cons _ _ _ (JStep.start ⟨.completed, 1, false⟩ (by decide) rfl)
            (.cons _ _ _ (JStep.finishOk ⟨.running, 0, true⟩ rfl)
              (.single ⟨.completed, 0, false⟩)))))
  · intro h
    simp only [List.map_cons, List.map_nil] at h
    rw [List.chain'_cons, List.chain'_cons, List.chain'_cons, List.chain'_cons] at h
    obtain ⟨_, _, _, h4, _⟩ := h
    exact (by decide : ¬ specPair JStatus.completed JStatus.running) h4

/-- Claim C3 (amended): provided every resubmission happens only when the
record is quiescent (no still-enqueued task and no in-flight worker run —
i.e. only terminal records are resubmitted), every observable status walk
from a freshly created record follows the claimed pattern: adjacent moves
are only `submitted → running`, `running → completed|failed`, or a reset
to `submitted`; in particular the status never jumps from `submitted`
straight to `completed` and never goes backward except to `submitted` via
resubmission. -/
theorem claim_C3 (l : List JobState) (h : PathFrom JStepQ initJob l) :
    List.Chain' specPair (l.map JobState.status) :=
  pathQ_chain initJob l h ⟨Nat.le_refl 1, fun c => Bool.noConfusion c, fun _ => rfl⟩

theorem claim_C3_witness :
    List.Chain' specPair
      ([initJob, ⟨.running, 0, true⟩, ⟨.completed, 0, false⟩].map JobState.status) :=
  claim_C3 _ (.cons _ _ _ (JStepQ.start initJob (by decide) rfl)
    (.cons _ _ _ (JStepQ.finishOk ⟨.running, 0, true⟩ rfl)
      (.single ⟨.completed, 0, false⟩)))

/-! ## Claim C7: canonical lists are sorted (and deduplicated only for validation) -/

/-- Claim C7, counterexample: DIAMOnD does not deduplicate seeds — it only
sorts them.  Submitting `["1", "1"]` stores the duplicate in the canonical
query, which therefore differs from the canonical query for `["1"]`: two
submissions differing only in a repeated seed map to different Job
Records. -/
theorem claim_C7_counterexample :
    diamond_query ⟨some ["1", "1"], some 1, none, none, none⟩ =
      .ok ⟨["1", "1"], "gene", 1, 1, "DEFAULT", "all"⟩ ∧
    ¬ (["1", "1"] : List String).Nodup ∧
    diamond_query ⟨some ["1"], some 1, none, none, none⟩ =
      .ok ⟨["1"], "gene", 1, 1, "DEFAULT", "all"⟩ ∧
    (⟨["1", "1"], "gene", 1, 1, "DEFAULT", "all"⟩ : DiamondQuery) ≠
      ⟨["1"], "gene", 1, 1, "DEFAULT", "all"⟩ := by decide

/-- Claim C7 (amended): every canonical seed list is sorted ascending, and
reordering the submitted seeds never changes the canonical query; the
joint-validation endpoint additionally deduplicates its drug lists
(`sorted(set(...))`), so duplicated and reordered drug lists collapse to
the same canonical field — but DIAMOnD seeds are only sorted, not
deduplicated. -/
theorem claim_C7 :
    (∀ (dr : DiamondRequest) (q : DiamondQuery), diamond_query dr = .ok q →
      List.Sorted rStrLe q.seeds) ∧
    (∀ (dr : DiamondRequest) (s1 s2 : List String), List.Perm s1 s2 →
      diamond_query { dr with seeds := some s1 } =
        diamond_query { dr with seeds := some s2 }) ∧
    (∀ l : List String, (joint_test_drugs l).Nodup ∧
      List.Sorted rStrLe (joint_test_drugs l)) ∧
    (∀ l1 l2 : List String, (∀ x, x ∈ l1 ↔ x ∈ l2) →
      joint_test_drugs l1 = joint_test_drugs l2) := by
  refine ⟨?_, fun dr s1 s2 h => diamond_query_perm dr s1 s2 h, ?_, ?_⟩
  · intro dr q h
    rcases hs : dr.seeds with _ | seeds
    · simp [diamond_query, hs] at h
    · by_cases hemp : seeds.isEmpty = true
      · simp [diamond_query, hs, hemp] at h
      · rcases hn : dr.n with _ | n
        · simp [diamond_query, hs, hemp, hn] at h
        · by_cases hn0 : n = 0
          · simp [diamond_query, hs, hemp, hn, hn0] at h
          · by_cases hedges : (dr.edges.getD "all") ≠ "all" ∧ (dr.edges.getD "all") ≠ "limited"
            · simp [diamond_query, hs, hemp, hn, hn0, hedges] at h
            · simp [diamond_query, hs, hemp, hn, hn0, hedges] at h
              rw [← h]
              exact pySorted_sorted _
  · intro l
    exact ⟨pySortedSet_nodup _, pySorted_sorted _⟩
  · intro l1 l2 h
    apply pySortedSet_eq_of_mem_iff
    intro x
    simp only [standardize_drugbank_list, standardize_list, List.mem_map]
    constructor
    · rintro ⟨y, hy, rfl⟩
      exact ⟨y, (h y).mp hy, rfl⟩
    · rintro ⟨y, hy, rfl⟩
      exact ⟨y, (h y).mpr hy, rfl⟩

theorem claim_C7_witness :
    List.Sorted rStrLe
      (⟨["2717", "7157"], "gene", 50, 1, "DEFAULT", "all"⟩ : DiamondQuery).seeds :=
  claim_C7.1 ⟨some ["7157", "2717"], some 50, none, none, none⟩
    ⟨["2717", "7157"], "gene", 50, 1, "DEFAULT", "all"⟩ (by decide)

/-! ## Claim C2: uniqueness and race safety of the serialized protocol -/

theorem submitMany_cons (p : DiamondRequest × String) (rest : List (DiamondRequest × String))
    (st : DiamondState) :
    submitMany (p :: rest) st = submitMany rest (diamond_submit p.1 p.2 st).2 := rfl

theorem findRecQ_none_iff (q : DiamondQuery) (rs : List DiamondRecord) :
    findRecQ q rs = none ↔ q ∉ rs.map (fun r => r.query) := by
  induction rs with
  | nil => simp [findRecQ]
  | cons r rest ih =>
    rw [findRecQ_cons]
    by_cases hr : r.query = q
    · rw [if_pos hr]
      simp [hr]
    · rw [if_neg hr, ih]
      simp [List.mem_cons, (show ¬ q = r.query from fun c => hr c.symm)]

theorem findRecQ_some_mem {q : DiamondQuery} {rs : List DiamondRecord} {r : DiamondRecord}
    (h : findRecQ q rs = some r) : q ∈ rs.map (fun r => r.query) := by
  by_contra hq
  rw [← findRecQ_none_iff] at hq
  rw [hq] at h
  exact Option.noConfusion h

theorem queries_submit_err {dr : DiamondRequest} {er : HErr}
    (hq : diamond_query dr = .error er) (u : String) (st : DiamondState) :
    queriesOf (diamond_submit dr u st).2 = queriesOf st := by
  rw [submit_of_query_error hq]

theorem queries_submit_ok {dr : DiamondRequest} {q : DiamondQuery}
    (hq : diamond_query dr = .ok q) (u : String) (st : DiamondState) :
    queriesOf (diamond_submit dr u st).2 = insertIfAbsent (queriesOf st) q := by
  cases hf : findDiamondByQuery q st with
  | some r =>
    rw [submit_found u st hq hf]
    unfold insertIfAbsent
    rw [if_pos (show q ∈ queriesOf st from findRecQ_some_mem hf)]
    rfl
  | none =>
    rw [submit_new u st hq hf]
    unfold insertIfAbsent
    rw [if_neg (show q ∉ queriesOf st from (findRecQ_none_iff q st.records).mp hf)]
    simp [queriesOf]

theorem tasks_records_submit (dr : DiamondRequest) (u : String) (st : DiamondState) :
    (diamond_submit dr u st).2.tasks.length + st.records.length =
      (diamond_submit dr u st).2.records.length + st.tasks.length := by
  rcases hq : diamond_query dr with er | q
  · rw [submit_of_query_error hq]
    exact Nat.add_comm _ _
  · cases hf : findDiamondByQuery q st with
    | some r =>
      rw [submit_found u st hq hf]
      exact Nat.add_comm _ _
    | none =>
      rw [submit_new u st hq hf]
      simp
      omega

theorem uids_submit (dr : DiamondRequest) (u : String) (st : DiamondState) :
    uidsOf (diamond_submit dr u st).2 = uidsOf st ∨
    uidsOf (diamond_submit dr u st).2 = uidsOf st ++ [u] := by
  rcases hq : diamond_query dr with er | q
  · left; rw [submit_of_query_error hq]
  · cases hf : findDiamondByQuery q st with
    | some r =>
      left; rw [submit_found u st hq hf]; rfl
    | none =>
      right; rw [submit_new u st hq hf]; simp [uidsOf]

theorem submitMany_queries : ∀ (reqs : List (DiamondRequest × String)) (st : DiamondState),
    queriesOf (submitMany reqs st) = (okQueries reqs).foldl insertIfAbsent (queriesOf st) := by
  intro reqs
  induction reqs with
  | nil => intro st; rfl
  | cons p rest ih =>
    intro st
    rw [submitMany_cons, ih]
    rcases hq : diamond_query p.1 with er | q
    · rw [queries_submit_err hq]
      have h1 : okQuery p.1 = none := by simp [okQuery, hq, Except.toOption]
      simp [okQueries, List.filterMap_cons, h1]
    · rw [queries_submit_ok hq]
      have h1 : okQuery p.1 = some q := by simp [okQuery, hq, Except.toOption]
      simp [okQueries, List.filterMap_cons, h1]

theorem tasks_records_submitMany : ∀ (reqs : List (DiamondRequest × String)) (st : DiamondState),
    (submitMany reqs st).tasks.length + st.records.length =
      (submitMany reqs st).records.length + st.tasks.length := by
  intro reqs
  induction reqs with
  | nil => intro st; exact Nat.add_comm _ _
  | cons p rest ih =>
    intro st
    have h1 := ih (diamond_submit p.1 p.2 st).2
    have h2 := tasks_records_submit p.1 p.2 st
    rw [submitMany_cons]
    omega

theorem uids_submitMany : ∀ (reqs : List (DiamondRequest × String)) (st : DiamondState),
    ∃ t, List.Sublist t (reqs.map Prod.snd) ∧ uidsOf (submitMany reqs st) = uidsOf st ++ t := by
  intro reqs
  induction reqs with
  | nil =>
    intro st
    exact ⟨[], List.nil_sublist _, by simp [submitMany]⟩
  | cons p rest ih =>
    intro st
    obtain ⟨t, hsub, he⟩ := ih (diamond_submit p.1 p.2 st).2
    rcases uids_submit p.1 p.2 st with h | h
    · refine ⟨t, List.Sublist.cons _ hsub, ?_⟩
      rw [submitMany_cons, he, h]
    · refine ⟨p.2 :: t, List.Sublist.cons₂ _ hsub, ?_⟩
      rw [submitMany_cons, he, h, List.append_assoc, List.singleton_append]

theorem mem_insertIfAbsent {l : List DiamondQuery} {q x : DiamondQuery} :
    x ∈ insertIfAbsent l q ↔ x ∈ l ∨ x = q := by
  unfold insertIfAbsent
  split_ifs with hq
  · constructor
    · intro h; exact Or.inl h
    · rintro (h | rfl)
      · exact h
      · exact hq
  · simp

theorem insertIfAbsent_nodup {l : List DiamondQuery} (h : l.Nodup) (q : DiamondQuery) :
    (insertIfAbsent l q).Nodup := by
  unfold insertIfAbsent
  split_ifs with hq
  · exact h
  · rw [List.nodup_append]
    exact ⟨h, List.nodup_singleton q,
      fun a ha hb => hq ((List.mem_singleton.mp hb) ▸ ha)⟩

theorem foldl_insertIfAbsent_nodup : ∀ (l : List DiamondQuery) (acc : List DiamondQuery),
    acc.Nodup → (l.foldl insertIfAbsent acc).Nodup := by
  intro l
  induction l with
  | nil => intro acc h; exact h
  | cons q rest ih =>
    intro acc h
    rw [List.foldl_cons]
    exact ih _ (insertIfAbsent_nodup h q)

theorem mem_foldl_insertIfAbsent : ∀ (l acc : List DiamondQuery) (x : DiamondQuery),
    x ∈ l.foldl insertIfAbsent acc ↔ x ∈ acc ∨ x ∈ l := by
  intro l
  induction l with
  | nil => intro acc x; simp
  | cons q rest ih =>
    intro acc x
    rw [List.foldl_cons, ih, mem_insertIfAbsent]
    simp only [List.mem_cons]
    tauto

theorem foldl_insertIfAbsent_length (l : List DiamondQuery) :
    (l.foldl insertIfAbsent []).length = l.dedup.length := by
  have hnd : (l.foldl insertIfAbsent []).Nodup :=
    foldl_insertIfAbsent_nodup l [] List.nodup_nil
  have hperm : List.Perm (l.foldl insertIfAbsent []) l.dedup :=
    List.perm_of_nodup_nodup_toFinset_eq hnd l.nodup_dedup
      (by ext x; simp [List.mem_toFinset, mem_foldl_insertIfAbsent, List.mem_dedup])
  exact hperm.length_eq

/-- Claim C2: folding any sequence of submissions (the order the collection
lock serializes them in) from an empty collection, with the drawn uids
pairwise distinct: the collection never holds two records with the same
canonical query, exactly one task is enqueued per record, the number of
records equals the number of distinct canonical queries among the valid
submissions (so M submitters with an identical canonical query yield one
record and one task, and N distinct canonical queries yield N records), and
the stored uids are pairwise distinct. -/
theorem claim_C2 (reqs : List (DiamondRequest × String))
    (hfresh : (reqs.map Prod.snd).Nodup) :
    (queriesOf (submitMany reqs emptyDiamondState)).Nodup ∧
    (submitMany reqs emptyDiamondState).tasks.length =
      (submitMany reqs emptyDiamondState).records.length ∧
    (submitMany reqs emptyDiamondState).records.length = (okQueries reqs).dedup.length ∧
    (uidsOf (submitMany reqs emptyDiamondState)).Nodup := by
  have hq := submitMany_queries reqs emptyDiamondState
  refine ⟨?_, ?_, ?_, ?_⟩
  · rw [hq]
    exact foldl_insertIfAbsent_nodup _ _ List.nodup_nil
  · have := tasks_records_submitMany reqs emptyDiamondState
    simpa [emptyDiamondState] using this
  · have hlen : (queriesOf (submitMany reqs emptyDiamondState)).length =
        (okQueries reqs).dedup.length := by
      rw [hq]
      exact foldl_insertIfAbsent_length _
    rw [queriesOf, List.length_map] at hlen
    exact hlen
  · obtain ⟨t, hsub, he⟩ := uids_submitMany reqs emptyDiamondState
    rw [he, show uidsOf emptyDiamondState = [] from rfl, List.nil_append]
    exact hsub.nodup hfresh

theorem claim_C2_witness :
    ((["u1", "u2", "u3"] : List String).Nodup) ∧
    ((queriesOf (submitMany
        [(⟨some ["7157", "2717"], some 50, none, none, none⟩, "u1"),
         (⟨some ["2717", "7157"], some 50, some 1, some "DEFAULT", some "all"⟩, "u2"),
         (⟨some ["2717"], some 10, none, none, none⟩, "u3")] emptyDiamondState)).Nodup ∧
      (submitMany
        [(⟨some ["7157", "2717"], some 50, none, none, none⟩, "u1"),
         (⟨some ["2717", "7157"], some 50, some 1, some "DEFAULT", some "all"⟩, "u2"),
         (⟨some ["2717"], some 10, none, none, none⟩, "u3")] emptyDiamondState).tasks.length =
        (submitMany
        [(⟨some ["7157", "2717"], some 50, none, none, none⟩, "u1"),
         (⟨some ["2717", "7157"], some 50, some 1, some "DEFAULT", some "all"⟩, "u2"),
         (⟨some ["2717"], some 10, none, none, none⟩, "u3")] emptyDiamondState).records.length ∧
      (submitMany
        [(⟨some ["7157", "2717"], some 50, none, none, none⟩, "u1"),
         (⟨some ["2717", "7157"], some 50, some 1, some "DEFAULT", some "all"⟩, "u2"),
         (⟨some ["2717"], some 10, none, none, none⟩, "u3")] emptyDiamondState).records.length =
        (okQueries
        [(⟨some ["7157", "2717"], some 50, none, none, none⟩, "u1"),
         (⟨some ["2717", "7157"], some 50, some 1, some "DEFAULT", some "all"⟩, "u2"),
         (⟨some ["2717"], some 10, none, none, none⟩, "u3")]).dedup.length ∧
      (uidsOf (submitMany
        [(⟨some ["7157", "2717"], some 50, none, none, none⟩, "u1"),
         (⟨some ["2717", "7157"], some 50, some 1, some "DEFAULT", some "all"⟩, "u2"),
         (⟨some ["2717"], some 10, none, none, none⟩, "u3")] emptyDiamondState)).Nodup) :=
  ⟨by decide,
    claim_C2
      [(⟨some ["7157", "2717"], some 50, none, none, none⟩, "u1"),
       (⟨some ["2717", "7157"], some 50, some 1, some "DEFAULT", some "all"⟩, "u2"),
       (⟨some ["2717"], some 10, none, none, none⟩, "u3")] (by decide)⟩

end Nedrex
